
import Mathlib

/-!
# Memory-pool allocator (`mem_pool.c`): shallow embedding

The pool manager of `src/mem_pool.c` is embedded as pure functions on an explicit
state record.

Conventions of the embedding
* A `node_pt` is the slot index of the node in `node_heap`; `none` is `NULL`.
  An allocation handle (`alloc_pt`) is the slot index of the node it was cast from.
* An address inside the pool buffer (`alloc_record.mem`) is its byte offset from
  `pool.mem`; `none` is `NULL`, which compares below every buffer address.
* `size_t` arithmetic is taken modulo `2^64`, `unsigned` arithmetic modulo `2^32`.
* `calloc`, `malloc` and `realloc` are taken to succeed.  `realloc` keeps the
  contents of the array.  A `realloc` to the size the block already has leaves the
  block in place; a `realloc` to another size moves it and frees the old block.
* The only pointers into a reallocated array are the node pointers (`next`, `prev`,
  `gap_ix[i].node` and the handles given to the caller), which point into the node
  heap.  When the node heap moves, every such pointer held from before keeps its value
  and dangles: it points into the freed block.  A slot index is relative to the
  current block; the dangling pointer to the old slot `k` is written `k + 80`, an index
  that no node heap has (`dangling`), so that going through it is undefined.
* A function returns `none` when the C code would dereference `NULL`, index an
  array out of bounds, or dereference an uninitialised or dangling pointer.
* The local `int position` of `_mem_remove_from_gap_ix` is read uninitialised when
  its search loop assigns nothing.  Its indeterminate initial value is an explicit
  argument (`garbage`), one for every call of the function.
-/

namespace MemPool

/-! ## Machine integers -/

/-- Modelled from the spec: `mem_pool.h` is not among the sources; sizes are `usize`
(`size_t`), taken as 64-bit. -/
def SIZE_MOD : Nat := 2 ^ 64

/-- Modelled from the spec: `mem_pool.h` is not among the sources; counters are C
`unsigned`, taken as 32-bit. -/
def UINT_MOD : Nat := 2 ^ 32

/-- The value one past `INT_MAX`: an `int` is negative exactly when its `unsigned`
conversion is at least this value. -/
def INT_LIMIT : Nat := 2 ^ 31

/-- Unsigned subtraction `a - b` of two values below `m`, in arithmetic modulo `m`:
the difference wraps around when `b` exceeds `a`. -/
def sub_mod (m a b : Nat) : Nat := if b ≤ a then a - b else m - (b - a)

/-! ## Constants (lines 13-26) -/

def MEM_NODE_HEAP_INIT_CAPACITY : Nat := 40
def MEM_NODE_HEAP_EXPAND_FACTOR : Nat := 2
def MEM_GAP_IX_INIT_CAPACITY : Nat := 40
def MEM_GAP_IX_EXPAND_FACTOR : Nat := 2

/-! ## Types -/

/-- Modelled from the spec: the enumeration `alloc_policy` of the missing header
`mem_pool.h` (FirstFit | BestFit). -/
inductive alloc_policy where
  | FIRST_FIT
  | BEST_FIT
deriving DecidableEq

/-- Modelled from the spec: the enumeration `alloc_status` of the missing header
`mem_pool.h` (OK, FAIL, NOT_FREED, CALLED_AGAIN). -/
inductive alloc_status where
  | ALLOC_OK
  | ALLOC_FAIL
  | ALLOC_NOT_FREED
  | ALLOC_CALLED_AGAIN
deriving DecidableEq

/-- The record `struct _node` (lines 33-38), with the fields of its `alloc_record`
(`size`, `mem`) inlined. -/
structure node_t where
  size : Nat
  mem : Option Nat
  used : Nat
  allocated : Nat
  next : Option Nat
  prev : Option Nat
deriving DecidableEq

/-- The record `struct _gap` (lines 40-43). -/
structure gap_t where
  size : Nat
  node : Option Nat
deriving DecidableEq

/-- The record `struct _pool_mgr` (lines 45-52), with the fields of its `pool`
(`pool_t` of the missing header: policy, total_size, alloc_size, num_allocs,
num_gaps) inlined.  `pool.mem` is offset `0` of the buffer. -/
structure pool_mgr_t where
  policy : alloc_policy
  total_size : Nat
  alloc_size : Nat
  num_allocs : Nat
  num_gaps : Nat
  node_heap : List node_t
  total_nodes : Nat
  used_nodes : Nat
  gap_ix : List gap_t
  gap_ix_capacity : Nat
deriving DecidableEq

/-- Modelled from the spec: one entry of the snapshot written by `mem_inspect_pool`
(`pool_segment_t` of the missing header: size and allocated flag). -/
structure pool_segment_t where
  size : Nat
  allocated : Nat
deriving DecidableEq

/-- A zeroed node, as `calloc` leaves it. -/
def node_zero : node_t := ⟨0, none, 0, 0, none, none⟩

/-- A zeroed gap entry, as `calloc` leaves it. -/
def gap_zero : gap_t := ⟨0, none⟩

/-! ## Array access -/

/-- Assignment through a node pointer: `node_heap[i]` becomes `f node_heap[i]`. -/
def node_upd (heap : List node_t) (i : Nat) (f : node_t → node_t) : Option (List node_t) :=
  match heap[i]? with
  | none => none
  | some nd => some (heap.set i (f nd))

/-- Assignment `gap_ix[i] = g`. -/
def gap_set (gx : List gap_t) (i : Nat) (g : gap_t) : Option (List gap_t) :=
  if i < gx.length then some (gx.set i g) else none

/-- The node a gap entry points to: `gap_ix[i].node->...`. -/
def gap_node (heap : List node_t) (gx : List gap_t) (i : Nat) : Option (gap_t × Nat × node_t) :=
  match gx[i]? with
  | none => none
  | some g =>
    match g.node with
    | none => none
    | some k =>
      match heap[k]? with
      | none => none
      | some nd => some (g, k, nd)

/-- Pointer comparison `a < b` on buffer addresses; `NULL` is below every address. -/
def mem_lt : Option Nat → Option Nat → Bool
  | none, none => false
  | none, some _ => true
  | some _, none => false
  | some a, some b => decide (a < b)

/-- Reallocation of an array to `n` entries: the old entries are kept, and the
entries added are zeroed in the model (their contents are indeterminate in C). -/
def realloc_list {α : Type} (xs : List α) (n : Nat) (zero : α) : List α :=
  xs.take n ++ List.replicate (n - xs.length) zero

/-! ## mem_pool_open (lines 119-196) -/

/-- The manager built by `mem_pool_open(size, policy)` when the pool store is
initialised and every allocation succeeds. -/
def mem_pool_open (size : Nat) (policy : alloc_policy) : pool_mgr_t :=
  let heap := List.replicate MEM_NODE_HEAP_INIT_CAPACITY node_zero
  let gx := List.replicate MEM_GAP_IX_INIT_CAPACITY gap_zero
  { policy := policy
    total_size := size
    alloc_size := 0
    num_allocs := 0
    num_gaps := 1
    node_heap := heap.set 0 ⟨size, some 0, 1, 0, none, none⟩
    total_nodes := MEM_NODE_HEAP_INIT_CAPACITY
    used_nodes := 1
    gap_ix := gx.set 0 ⟨0, some 0⟩
    gap_ix_capacity := MEM_GAP_IX_INIT_CAPACITY }

/-! ## Static functions (lines 518-609) -/

/-- A node pointer held from before the node heap moved: its value `k` now points into
the freed block, which is written as the index `k + 80`, outside every node heap (the
heap has 40 slots as opened and 80 after line 521). `NULL` stays `NULL`. -/
def dangling (ptr : Option Nat) : Option Nat :=
  ptr.map (fun k => k + MEM_NODE_HEAP_EXPAND_FACTOR * MEM_NODE_HEAP_INIT_CAPACITY)

/-- The manager when `realloc` has moved the node heap: the nodes are copied with their
contents, so the `next` and `prev` links, and the `node` pointers of the gap index, keep
their values and point into the freed block. -/
def heap_moved (p : pool_mgr_t) : pool_mgr_t :=
  { p with
    node_heap := p.node_heap.map (fun nd =>
      { nd with next := dangling nd.next, prev := dangling nd.prev })
    gap_ix := p.gap_ix.map (fun g => { g with node := dangling g.node }) }

/-- The function `_mem_resize_node_heap` (lines 518-528).  The test
`(float) node_heap->used / node_heap->alloc_record.size > 0.75` reads the `used` flag
and the size of slot 0; for a flag of 0 or 1 it is `4 * used > 3 * size` exactly.
The `realloc` of line 521 asks for 80 slots whatever the heap has: the heap of 40 slots
moves (`heap_moved`), a heap of 80 slots stays in place.  On success the size of slot 0
is doubled; `total_nodes` is not touched. -/
def _mem_resize_node_heap (p : pool_mgr_t) : Option pool_mgr_t :=
  match p.node_heap[0]? with
  | none => none
  | some n0 =>
    if 4 * n0.used > 3 * n0.size then
      let p0 :=
        if p.node_heap.length = MEM_NODE_HEAP_EXPAND_FACTOR * MEM_NODE_HEAP_INIT_CAPACITY
        then p else heap_moved p
      let heap := realloc_list p0.node_heap
        (MEM_NODE_HEAP_EXPAND_FACTOR * MEM_NODE_HEAP_INIT_CAPACITY) node_zero
      match node_upd heap 0 (fun nd => { nd with size := (nd.size * MEM_NODE_HEAP_EXPAND_FACTOR) % SIZE_MOD }) with
      | none => none
      | some heap1 => some { p0 with node_heap := heap1 }
    else some p

/-- The function `_mem_resize_gap_ix` (lines 530-541).  The test
`(float) num_gaps / gap_ix_capacity > 0.75` is `4 * num_gaps > 3 * gap_ix_capacity`
for the small counts that occur. -/
def _mem_resize_gap_ix (p : pool_mgr_t) : pool_mgr_t :=
  if 4 * p.num_gaps > 3 * p.gap_ix_capacity then
    { p with
      gap_ix := realloc_list p.gap_ix (MEM_GAP_IX_EXPAND_FACTOR * MEM_GAP_IX_INIT_CAPACITY) gap_zero
      gap_ix_capacity := (p.gap_ix_capacity * MEM_GAP_IX_EXPAND_FACTOR) % UINT_MOD }
  else p

/-- The loop of `_mem_sort_gap_ix` (lines 597-607): `sort_loop heap i gx` runs the
iterations `i, i-1, ..., 1`, swapping `gap_ix[i]` and `gap_ix[i-1]` when the node of the
former is smaller, or equal in size and lower in address. -/
def sort_loop (heap : List node_t) : Nat → List gap_t → Option (List gap_t)
  | 0, gx => some gx
  | i + 1, gx =>
    match gap_node heap gx (i + 1), gap_node heap gx i with
    | some (gi, _, ni), some (gj, _, nj) =>
      if ni.size < nj.size ∨ (mem_lt ni.mem nj.mem = true ∧ ni.size = nj.size) then
        sort_loop heap i ((gx.set i gi).set (i + 1) gj)
      else sort_loop heap i gx
    | _, _ => none

/-- The function `_mem_sort_gap_ix` (lines 594-609): one pass from `num_gaps - 1`
down to 1 (`int i`; no iteration when `num_gaps` is 0). -/
def _mem_sort_gap_ix (p : pool_mgr_t) : Option pool_mgr_t :=
  match sort_loop p.node_heap (p.num_gaps - 1) p.gap_ix with
  | none => none
  | some gx => some { p with gap_ix := gx }

/-- The function `_mem_add_to_gap_ix` (lines 543-562). -/
def _mem_add_to_gap_ix (p : pool_mgr_t) (size : Nat) (node : Nat) : Option pool_mgr_t :=
  let p1 := _mem_resize_gap_ix p
  match gap_set p1.gap_ix p1.num_gaps ⟨size, some node⟩ with
  | none => none
  | some gx =>
    _mem_sort_gap_ix { p1 with gap_ix := gx, num_gaps := (p1.num_gaps + 1) % UINT_MOD }

/-- The first loop of `_mem_remove_from_gap_ix` (lines 570-574):
`find_position heap gx mem size n i position` runs `n` iterations from index `i`;
an iteration assigns `position = i` when the node of `gap_ix[i]` has address `mem`
and the entry records `size`.  There is no `break`: the last match wins. -/
def find_position (heap : List node_t) (gx : List gap_t) (mem : Option Nat) (size : Nat) :
    Nat → Nat → Nat → Option Nat
  | 0, _, position => some position
  | n + 1, i, position =>
    match gap_node heap gx i with
    | none => none
    | some (g, _, nd) =>
      find_position heap gx mem size n (i + 1)
        (if nd.mem = mem ∧ g.size = size then i else position)

/-- The second loop of `_mem_remove_from_gap_ix` (lines 578-580):
`shift_loop n i gx` runs `n` iterations `gap_ix[i] = gap_ix[i+1]` from index `i`. -/
def shift_loop : Nat → Nat → List gap_t → Option (List gap_t)
  | 0, _, gx => some gx
  | n + 1, i, gx =>
    match gx[i + 1]? with
    | none => none
    | some g =>
      match gap_set gx i g with
      | none => none
      | some gx1 => shift_loop n (i + 1) gx1

/-- The function `_mem_remove_from_gap_ix` (lines 564-591).  `garbage` is the
indeterminate initial value of the local `position`, as the `unsigned` it converts to
in the comparisons `i < num_gaps - 1`.  The bound `num_gaps - 1` is unsigned and wraps
when `num_gaps` is 0.  The first loop leaves the last entry `num_gaps - 1` unexamined. -/
def _mem_remove_from_gap_ix (p : pool_mgr_t) (size : Nat) (node : Nat) (garbage : Nat) :
    Option pool_mgr_t :=
  let bound := sub_mod UINT_MOD p.num_gaps 1
  match p.node_heap[node]? with
  | none => none
  | some nd =>
    match find_position p.node_heap p.gap_ix nd.mem size bound 0 (garbage % UINT_MOD) with
    | none => none
    | some position =>
      let shifted :=
        if position < bound then
          if position < INT_LIMIT then shift_loop (bound - position) position p.gap_ix
          else none
        else some p.gap_ix
      match shifted with
      | none => none
      | some gx =>
        match gap_set gx bound gap_zero with
        | none => none
        | some gx1 => some { p with gap_ix := gx1, num_gaps := bound }

/-! ## mem_new_alloc (lines 240-355) -/

/-- The FIRST_FIT search (lines 262-269): `first_fit_loop heap size n i` runs up to `n`
iterations from slot `i`; a slot whose size is at least `size` and whose `allocated`
flag is 0 ends the loop, every other iteration sets `alloc_node = NULL`. -/
def first_fit_loop (heap : List node_t) (size : Nat) : Nat → Nat → Option (Option Nat)
  | 0, _ => some none
  | n + 1, i =>
    match heap[i]? with
    | none => none
    | some nd =>
      if nd.size ≥ size ∧ nd.allocated = 0 then some (some i)
      else first_fit_loop heap size n (i + 1)

/-- The BEST_FIT search (lines 274-281): `best_fit_loop heap gx size n i` runs up to `n`
iterations from entry `i` of the gap index; an entry whose node has size at least
`size` and `allocated` flag 0 ends the loop, every other iteration sets
`alloc_node = NULL`. -/
def best_fit_loop (heap : List node_t) (gx : List gap_t) (size : Nat) :
    Nat → Nat → Option (Option Nat)
  | 0, _ => some none
  | n + 1, i =>
    match gap_node heap gx i with
    | none => none
    | some (_, k, nd) =>
      if nd.size ≥ size ∧ nd.allocated = 0 then some (some k)
      else best_fit_loop heap gx size n (i + 1)

/-- The search for an unused slot (lines 310-315): the first slot below `total_nodes`
whose `used` flag is 0; `some none` when the loop ends without one (`gap_node` is then
left uninitialised). -/
def unused_loop (heap : List node_t) : Nat → Nat → Option (Option Nat)
  | 0, _ => some none
  | n + 1, i =>
    match heap[i]? with
    | none => none
    | some nd => if nd.used = 0 then some (some i) else unused_loop heap n (i + 1)

/-- The split of lines 309-346, entered when `gap_remain != 0`: initialise an unused
slot as the gap that remains, link it after `alloc_node`, add it to the gap index.
The address of the gap is `alloc_node->alloc_record.mem + size`; pointer arithmetic on
`NULL` gives `none`. -/
def split_node (p : pool_mgr_t) (alloc_node : Nat) (size gap_remain : Nat) :
    Option pool_mgr_t := do
  let found ← unused_loop p.node_heap p.total_nodes 0
  let gap ← found
  let an ← p.node_heap[alloc_node]?
  let amem ← an.mem
  let h1 ← node_upd p.node_heap gap (fun nd =>
    { nd with size := gap_remain, mem := some (amem + size), used := 1, allocated := 0 })
  let used := (p.used_nodes + 1) % UINT_MOD
  let an1 ← h1[alloc_node]?
  let h4 ←
    match an1.next with
    | none => do
      let h2 ← node_upd h1 alloc_node (fun nd => { nd with next := some gap })
      let h3 ← node_upd h2 gap (fun nd => { nd with next := none })
      node_upd h3 gap (fun nd => { nd with prev := some alloc_node })
    | some nx => do
      let h2 ← node_upd h1 gap (fun nd => { nd with next := some nx })
      let an2 ← h2[alloc_node]?
      let nx2 ← an2.next
      let h3 ← node_upd h2 nx2 (fun nd => { nd with prev := some gap })
      let h3a ← node_upd h3 alloc_node (fun nd => { nd with next := some gap })
      node_upd h3a gap (fun nd => { nd with prev := some alloc_node })
  _mem_add_to_gap_ix { p with node_heap := h4, used_nodes := used } gap_remain gap

/-- The search of lines 259-282 by the policy of the pool; `some none` is
`alloc_node == NULL`.  Both loops run at least once where they are reached
(`total_nodes` is 40 and `num_gaps` is not 0), so `alloc_node` is assigned. -/
def alloc_search (p : pool_mgr_t) (size : Nat) : Option (Option Nat) :=
  match p.policy with
  | alloc_policy.FIRST_FIT => first_fit_loop p.node_heap size p.total_nodes 0
  | alloc_policy.BEST_FIT => best_fit_loop p.node_heap p.gap_ix size p.num_gaps 0

/-- Lines 289-354 of `mem_new_alloc`, entered with the node found: count the allocation,
remove the node from the gap index (under the requested `size`), mark it allocated with
the requested size, and split off what remains. -/
def alloc_commit (p : pool_mgr_t) (size alloc_node garbage : Nat) :
    Option (pool_mgr_t × Option Nat) :=
  let p2 := { p with
    num_allocs := (p.num_allocs + 1) % UINT_MOD
    alloc_size := (p.alloc_size + size) % SIZE_MOD }
  match p2.node_heap[alloc_node]? with
  | none => none
  | some an =>
    let gap_remain := sub_mod SIZE_MOD an.size size
    match _mem_remove_from_gap_ix p2 size alloc_node garbage with
    | none => none
    | some p3 =>
      match node_upd p3.node_heap alloc_node (fun nd => { nd with allocated := 1 }) with
      | none => none
      | some h =>
        match node_upd h alloc_node (fun nd => { nd with size := size }) with
        | none => none
        | some h1 =>
          let p4 := { p3 with node_heap := h1 }
          if gap_remain ≠ 0 then
            match split_node p4 alloc_node size gap_remain with
            | none => none
            | some p5 => some (p5, some alloc_node)
          else some (p4, some alloc_node)

/-- The function `mem_new_alloc` (lines 240-355).  The result is the manager after the
call and the handle returned (`none` is `NULL`).  `garbage` is the indeterminate
initial value of `position` in the call of `_mem_remove_from_gap_ix`. -/
def mem_new_alloc (p : pool_mgr_t) (size : Nat) (garbage : Nat) :
    Option (pool_mgr_t × Option Nat) :=
  if p.num_gaps = 0 then some (p, none)
  else
    match _mem_resize_node_heap p with
    | none => none
    | some p1 =>
      if p1.used_nodes ≥ p1.total_nodes then some (p1, none)
      else
        match alloc_search p1 size with
        | none => none
        | some none => some (p1, none)
        | some (some alloc_node) => alloc_commit p1 size alloc_node garbage

/-! ## mem_del_alloc (lines 357-464) -/

/-- The lookup of lines 367-373: the first slot below `total_nodes` whose address equals
`mem`; `some none` when the loop ends without one (`node_delete` is then left
uninitialised). -/
def locate_loop (heap : List node_t) (mem : Option Nat) : Nat → Nat → Option (Option Nat)
  | 0, _ => some none
  | n + 1, i =>
    match heap[i]? with
    | none => none
    | some nd => if nd.mem = mem then some (some i) else locate_loop heap mem n (i + 1)

/-- The merge with the chain successor (lines 389-418), entered when the successor
`merge_node` of `node_delete` exists, is not allocated and is in use. -/
def merge_next (p : pool_mgr_t) (node_delete merge_node : Nat) (garbage : Nat) :
    Option pool_mgr_t := do
  let mn ← p.node_heap[merge_node]?
  let p1 ← _mem_remove_from_gap_ix p mn.size merge_node garbage
  let nd ← p1.node_heap[node_delete]?
  let nx ← nd.next
  let nxn ← p1.node_heap[nx]?
  let h1 ← node_upd p1.node_heap node_delete (fun x => { x with size := (nd.size + nxn.size) % SIZE_MOD })
  let h2 ← node_upd h1 merge_node (fun x => { x with used := 0 })
  let used := sub_mod UINT_MOD p1.used_nodes 1
  let mn2 ← h2[merge_node]?
  let h4 ←
    match mn2.next with
    | some mnx => do
      let h3 ← node_upd h2 mnx (fun x => { x with prev := some node_delete })
      let mn3 ← h3[merge_node]?
      node_upd h3 node_delete (fun x => { x with next := mn3.next })
    | none => node_upd h2 node_delete (fun x => { x with next := none })
  let h5 ← node_upd h4 merge_node (fun x =>
    { x with next := none, prev := none, size := 0, mem := none })
  some { p1 with node_heap := h5, used_nodes := used }

/-- The merge with the chain predecessor (lines 425-461), entered when the predecessor
`prev_node` of `node_delete` exists, is in use and is not allocated.  `g1` and `g2` are
the indeterminate values for its two calls of `_mem_remove_from_gap_ix`. -/
def merge_prev (p : pool_mgr_t) (node_delete prev_node : Nat) (g1 g2 : Nat) :
    Option pool_mgr_t := do
  let pn ← p.node_heap[prev_node]?
  let p1 ← _mem_remove_from_gap_ix p pn.size prev_node g1
  let nd ← p1.node_heap[node_delete]?
  let p2 ← _mem_remove_from_gap_ix p1 nd.size node_delete g2
  let nd2 ← p2.node_heap[node_delete]?
  let pv ← nd2.prev
  let pvn ← p2.node_heap[pv]?
  let h1 ← node_upd p2.node_heap prev_node (fun x => { x with size := (nd2.size + pvn.size) % SIZE_MOD })
  let h2 ← node_upd h1 node_delete (fun x =>
    { x with size := 0, mem := none, used := 0, allocated := 0 })
  let used := sub_mod UINT_MOD p2.used_nodes 1
  let nd3 ← h2[node_delete]?
  let h4 ←
    match nd3.next with
    | some nx => do
      let h3 ← node_upd h2 prev_node (fun x => { x with next := some nx })
      let nd4 ← h3[node_delete]?
      let nx4 ← nd4.next
      node_upd h3 nx4 (fun x => { x with prev := some prev_node })
    | none => node_upd h2 prev_node (fun x => { x with next := none })
  let h5 ← node_upd h4 node_delete (fun x => { x with next := none, prev := none })
  let pn5 ← h5[prev_node]?
  _mem_add_to_gap_ix { p2 with node_heap := h5, used_nodes := used } pn5.size prev_node

/-- The function `mem_del_alloc` (lines 357-464) on the handle `alloc` (a slot index).
The result is the manager after the call and the status returned.  `g_next`, `g_prev`
and `g_self` are the indeterminate values of `position` in its three calls of
`_mem_remove_from_gap_ix` (line 394, line 429, line 430). -/
def mem_del_alloc (p : pool_mgr_t) (alloc : Nat) (g_next g_prev g_self : Nat) :
    Option (pool_mgr_t × alloc_status) := do
  let node ← p.node_heap[alloc]?
  let found ← locate_loop p.node_heap node.mem p.total_nodes 0
  let node_delete ← found
  let h1 ← node_upd p.node_heap node_delete (fun x => { x with allocated := 0 })
  let nd ← h1[node_delete]?
  let p1 := { p with
    node_heap := h1
    num_allocs := sub_mod UINT_MOD p.num_allocs 1
    alloc_size := sub_mod SIZE_MOD p.alloc_size nd.size }
  let p2 ←
    match nd.next with
    | none => some p1
    | some nx => do
      let nxn ← p1.node_heap[nx]?
      if nxn.allocated = 0 ∧ nxn.used = 1 then merge_next p1 node_delete nx g_next
      else some p1
  let nd2 ← p2.node_heap[node_delete]?
  let p3 ← _mem_add_to_gap_ix p2 nd2.size node_delete
  let nd3 ← p3.node_heap[node_delete]?
  let p4 ←
    match nd3.prev with
    | none => some p3
    | some pv => do
      let pvn ← p3.node_heap[pv]?
      if pvn.used = 1 ∧ pvn.allocated = 0 then merge_prev p3 node_delete pv g_prev g_self
      else some p3
  some (p4, alloc_status.ALLOC_OK)

/-! ## mem_inspect_pool (lines 466-497) -/

/-- The loop of lines 487-492: `inspect_loop heap cap node_loop` follows the `next`
links from `node_loop`, writing one entry per node; `cap` is the number of entries
left in the array `segs`, and writing past it is out of bounds. -/
def inspect_loop (heap : List node_t) : Nat → Option Nat → Option (List pool_segment_t)
  | _, none => some []
  | 0, some _ => none
  | cap + 1, some k =>
    match heap[k]? with
    | none => none
    | some nd =>
      match inspect_loop heap cap nd.next with
      | none => none
      | some rest => some (⟨nd.size, nd.allocated⟩ :: rest)

/-- The function `mem_inspect_pool` (lines 466-497): the entries written to `segs`,
whose capacity is `used_nodes`; the count reported is `used_nodes`. -/
def mem_inspect_pool (p : pool_mgr_t) : Option (List pool_segment_t × Nat) :=
  match inspect_loop p.node_heap p.used_nodes (some 0) with
  | none => none
  | some segs => some (segs, p.used_nodes)

/-! ## Call sequences and the properties of a pool state -/

/-- A call on an open pool: `allocate size` is `mem_new_alloc(pool, size)`,
`deallocate alloc` is `mem_del_alloc(pool, alloc)`; each carries the indeterminate values
its calls of `_mem_remove_from_gap_ix` start from. -/
inductive call where
  | allocate (size garbage : Nat)
  | deallocate (alloc g_next g_prev g_self : Nat)
deriving DecidableEq

/-- What a call returned: a handle (`none` is `NULL`) or a status. -/
inductive outcome where
  | handle (h : Option Nat)
  | status (s : alloc_status)
deriving DecidableEq

/-- The handles the caller holds after a call of `mem_new_alloc` that took the pool from
`p` to `p1`: when the node heap has moved (it has another length), the handles from
before dangle. -/
def held (p p1 : pool_mgr_t) (live : List Nat) : List Nat :=
  if p1.node_heap.length = p.node_heap.length then live
  else live.map (fun k => k + MEM_NODE_HEAP_EXPAND_FACTOR * MEM_NODE_HEAP_INIT_CAPACITY)

/-- Runs the calls in order on the pool `p`, with `live` the handles that `allocate`
returned and that were not yet passed to `deallocate`.  Only valid calls run: an
`allocate` of size 0 or a `deallocate` of a handle that is not live gives `none`, as
does undefined behaviour.  A handle from before the node heap moved is live under its
dangling value (`held`), and passing it to `deallocate` is undefined.  The result is
the final pool and the outcomes in call order. -/
def run_calls (p : pool_mgr_t) (live : List Nat) : List call → Option (pool_mgr_t × List outcome)
  | [] => some (p, [])
  | call.allocate size garbage :: rest =>
    if size = 0 then none
    else
      match mem_new_alloc p size garbage with
      | none => none
      | some (p1, h) =>
        match run_calls p1 (match h with | some k => k :: held p p1 live | none => held p p1 live)
            rest with
        | none => none
        | some (p2, outs) => some (p2, outcome.handle h :: outs)
  | call.deallocate alloc g_next g_prev g_self :: rest =>
    if alloc ∈ live then
      match mem_del_alloc p alloc g_next g_prev g_self with
      | none => none
      | some (p1, st) =>
        match run_calls p1 (live.erase alloc) rest with
        | none => none
        | some (p2, outs) => some (p2, outcome.status st :: outs)
    else none

/-- The slots met on the walk from slot `k` along the `next` links; `none` when the walk
leaves the node heap or has not ended after `fuel` nodes. -/
def chain_loop (heap : List node_t) : Nat → Option Nat → Option (List Nat)
  | _, none => some []
  | 0, some _ => none
  | fuel + 1, some k =>
    match heap[k]? with
    | none => none
    | some nd =>
      match chain_loop heap fuel nd.next with
      | none => none
      | some rest => some (k :: rest)

/-- The chain of a pool: the slots walked from the head, slot 0.  A chain without a
cycle has at most as many nodes as the heap has slots. -/
def chain (p : pool_mgr_t) : Option (List Nat) :=
  chain_loop p.node_heap p.node_heap.length (some 0)

/-- The node records of the chain, head first. -/
def chain_nodes (p : pool_mgr_t) : Option (List node_t) :=
  match chain p with
  | none => none
  | some ks => some (ks.filterMap (fun k => p.node_heap[k]?))

/-- Address order without gap or overlap: the first node starts at `base` and every
node starts where the one before it ends. -/
def contiguous : Nat → List node_t → Bool
  | _, [] => true
  | base, nd :: rest => nd.mem == some base && contiguous (base + nd.size) rest

/-- The sum of the sizes of the chain segments. -/
def chain_bytes (p : pool_mgr_t) : Option Nat :=
  match chain_nodes p with
  | none => none
  | some ns => some (ns.map (fun nd => nd.size)).sum

/-- The tiling property: the chain segments are contiguous from the buffer base and
their sizes sum to `total_size`. -/
def tiles (p : pool_mgr_t) : Bool :=
  match chain_nodes p with
  | none => false
  | some ns => contiguous 0 ns && (ns.map (fun nd => nd.size)).sum == p.total_size

/-- The sum of the sizes of the chain segments marked allocated. -/
def allocated_bytes (p : pool_mgr_t) : Option Nat :=
  match chain_nodes p with
  | none => none
  | some ns => some ((ns.filter (fun nd => nd.allocated != 0)).map (fun nd => nd.size)).sum

/-- The number of chain segments marked allocated. -/
def allocated_count (p : pool_mgr_t) : Option Nat :=
  match chain_nodes p with
  | none => none
  | some ns => some (ns.filter (fun nd => nd.allocated != 0)).length

/-- The chain slots whose segment is not allocated, in chain order. -/
def free_slots (p : pool_mgr_t) : Option (List Nat) :=
  match chain p with
  | none => none
  | some ks =>
    some (ks.filter (fun k =>
      match p.node_heap[k]? with
      | none => false
      | some nd => nd.allocated == 0))

/-- The slots referenced by the entries `gap_ix[0 .. num_gaps)`. -/
def gap_refs (p : pool_mgr_t) : List (Option Nat) :=
  (p.gap_ix.take p.num_gaps).map (fun g => g.node)

/-- The sort keys (size, address) of the segments referenced by `gap_ix[0 .. num_gaps)`;
an entry that references no node of the heap has the key `none`. -/
def gap_keys (p : pool_mgr_t) : List (Option (Nat × Option Nat)) :=
  (gap_refs p).map (fun r =>
    match r with
    | none => none
    | some k =>
      match p.node_heap[k]? with
      | none => none
      | some nd => some (nd.size, nd.mem))

/-- The order of the Free Index: key `a` may stand before key `b` when its size is
smaller, or the sizes are equal and its address is not higher. -/
def key_le : Option (Nat × Option Nat) → Option (Nat × Option Nat) → Bool
  | some (sa, ma), some (sb, mb) => decide (sa < sb) || (sa == sb && !(mem_lt mb ma))
  | _, _ => false

/-- The Free Index is sorted: every entry may stand before its successor. -/
def gap_ix_sorted (p : pool_mgr_t) : Bool :=
  let ks := gap_keys p
  (ks.zip ks.tail).all (fun ab => key_le ab.1 ab.2)

/-- The Free Index membership property: the entries reference exactly the free chain
segments, each exactly once. -/
def gap_ix_exact (p : pool_mgr_t) : Bool :=
  match free_slots p with
  | none => false
  | some fs => decide ((gap_refs p).Perm (fs.map some))

/-- The lowest-numbered slot below `total_nodes` that is in use, not allocated and of
size at least `size`: the segment a first-fit search is to return. -/
def lowest_fit (p : pool_mgr_t) (size : Nat) : Option Nat :=
  (List.range p.total_nodes).find? (fun i =>
    match p.node_heap[i]? with
    | none => false
    | some nd => nd.used == 1 && nd.allocated == 0 && decide (size ≤ nd.size))

/-- The pool of the BestFit reuse scenario before its last call: size 1000, BEST_FIT,
after allocating 100, 200 and 300 bytes (slots 0, 1, 2) and freeing the 200 bytes of
slot 1.  Slot 3 is the free tail of 400 bytes. -/
def reuse_before : pool_mgr_t :=
  { policy := alloc_policy.BEST_FIT
    total_size := 1000
    alloc_size := 400
    num_allocs := 2
    num_gaps := 2
    node_heap :=
      [⟨100, some 0, 1, 1, some 1, none⟩, ⟨200, some 100, 1, 0, some 2, some 0⟩,
       ⟨300, some 300, 1, 1, some 3, some 1⟩, ⟨400, some 600, 1, 0, none, some 2⟩]
      ++ List.replicate 36 node_zero
    total_nodes := 40
    used_nodes := 4
    gap_ix := [⟨200, some 1⟩, ⟨400, some 3⟩] ++ List.replicate 38 gap_zero
    gap_ix_capacity := 40 }

/-- The calls of a run that enters slot 1 of a FIRST_FIT pool of size 1 in the gap index
31 times: allocate 1 twice, 31 rounds of deallocate slot 0, allocate 1, allocate 1, and
the deallocate of the handles 1 to 31.  `γ` gives the indeterminate values. -/
def pump_calls (γ : Nat → Nat) : List call :=
  [call.allocate 1 (γ 0), call.allocate 1 (γ 1)] ++
    ((List.range 31).map (fun i =>
      [call.deallocate 0 (γ (5 * i + 2)) (γ (5 * i + 3)) (γ (5 * i + 4)),
       call.allocate 1 (γ (5 * i + 5)), call.allocate 1 (γ (5 * i + 6))])).flatten ++
    (List.range 31).map (fun i =>
      call.deallocate (i + 1) (γ (3 * i + 200)) (γ (3 * i + 201)) (γ (3 * i + 202)))

/-- The pool that the calls leave, started from `p` with no handle held; `p` itself
when a call is undefined. -/
def pool_after (p : pool_mgr_t) (calls : List call) : pool_mgr_t :=
  match run_calls p [] calls with
  | some (q, _) => q
  | none => p

/-- Fifteen calls on a FIRST_FIT pool of size 1, every deallocate of a handle that is
live: three rounds of allocate 1, allocate 1, deallocate slot 0; then allocate 1,
allocate 2, and the deallocate of the handles 1, 2, 0 and 3.  `γ` gives the
indeterminate values. -/
def order_calls (γ : Nat → Nat) : List call :=
  [call.allocate 1 (γ 0), call.allocate 1 (γ 1), call.deallocate 0 (γ 2) (γ 3) (γ 4),
   call.allocate 1 (γ 5), call.allocate 1 (γ 6), call.deallocate 0 (γ 7) (γ 8) (γ 9),
   call.allocate 1 (γ 10), call.allocate 1 (γ 11), call.deallocate 0 (γ 12) (γ 13) (γ 14),
   call.allocate 1 (γ 15), call.allocate 2 (γ 16),
   call.deallocate 1 (γ 17) (γ 18) (γ 19), call.deallocate 2 (γ 20) (γ 21) (γ 22),
   call.deallocate 0 (γ 23) (γ 24) (γ 25), call.deallocate 3 (γ 26) (γ 27) (γ 28)]

/-- The pool that `order_calls` leaves on a FIRST_FIT pool of size 1; it is the same
for all indeterminate values (`order_calls_run`). -/
def order_pool : pool_mgr_t :=
  pool_after (mem_pool_open 1 alloc_policy.FIRST_FIT) (order_calls (fun _ => 0))

/-- The pool after allocate 100, 200, 300, the deallocate of the 100-byte segment and an
`allocate 150` whose `position` starts at 0, on a BEST_FIT pool of size 1000. -/
def skip_pool : pool_mgr_t :=
  pool_after (mem_pool_open 1000 alloc_policy.BEST_FIT)
    [call.allocate 100 0, call.allocate 200 0, call.allocate 300 0,
     call.deallocate 0 0 0 0, call.allocate 150 0]

/-! ## The pool store (lines 59-61, 86-96, 119-238, 504-516) -/

/-- The comparison of `_mem_sort_gap_ix` on two nodes: `a` goes before `b`. -/
def node_lt (a b : node_t) : Prop :=
  a.size < b.size ∨ (mem_lt a.mem b.mem = true ∧ a.size = b.size)

instance node_lt_decidable (a b : node_t) : Decidable (node_lt a b) := by unfold node_lt; exact inferInstance

/-- The node a gap entry references, when it references one. -/
def entry_node (heap : List node_t) (g : gap_t) : Option node_t :=
  match g.node with
  | none => none
  | some k => heap[k]?

/-- One backward insertion step on the reversed list of entries: the new entry `e`
passes every entry whose node it precedes. -/
def ins_rev (lt : gap_t → gap_t → Prop) [DecidableRel lt] : List gap_t → gap_t → List gap_t
  | [], e => [e]
  | a :: rest, e => if lt e a then a :: ins_rev lt rest e else e :: a :: rest

/-- The comparison of `_mem_sort_gap_ix` on two entries, through the nodes they
reference. -/
def entry_lt (heap : List node_t) (e a : gap_t) : Prop :=
  match entry_node heap e, entry_node heap a with
  | some ne, some na => node_lt ne na
  | _, _ => False

instance entry_lt_decidable (heap : List node_t) : DecidableRel (entry_lt heap) := by
  intro e a; unfold entry_lt; split <;> exact inferInstance

/-! ## The indeterminate `position` of `_mem_remove_from_gap_ix` -/

/-- The search loop of `_mem_remove_from_gap_ix` either fails, or finds an index that does
not depend on the initial value of `position`, or hands that initial value back. -/
theorem find_position_init (heap : List node_t) (gx : List gap_t) (mem : Option Nat)
    (size : Nat) : ∀ n i : Nat,
    (∀ pos, find_position heap gx mem size n i pos = none) ∨
    (∃ j, j < i + n ∧ ∀ pos, find_position heap gx mem size n i pos = some j) ∨
    (∀ pos, find_position heap gx mem size n i pos = some pos) := by
  intro n
  induction n with
  | zero => intro i; right; right; intro pos; rfl
  | succ n ih =>
    intro i
    cases hg : gap_node heap gx i with
    | none => left; intro pos; simp [find_position, hg]
    | some r =>
      obtain ⟨g, k, nd⟩ := r
      by_cases c : nd.mem = mem ∧ g.size = size
      · rcases ih (i + 1) with h | ⟨j, hj, h⟩ | h
        · left; intro pos; simp [find_position, hg, h]
        · right; left; exact ⟨j, by omega, fun pos => by simp [find_position, hg, h]⟩
        · right; left; exact ⟨i, by omega, fun pos => by simp [find_position, hg, c, h]⟩
      · rcases ih (i + 1) with h | ⟨j, hj, h⟩ | h
        · left; intro pos; simp [find_position, hg, h]
        · right; left; exact ⟨j, by omega, fun pos => by simp [find_position, hg, h]⟩
        · right; right; intro pos; simp [find_position, hg, c, h]

/-- Two indeterminate values at or above the loop bound `num_gaps - 1` give the same
result of `_mem_remove_from_gap_ix`: the shifting loop runs for neither. -/
theorem remove_garbage_ge (p : pool_mgr_t) (size node g g' : Nat)
    (h : sub_mod UINT_MOD p.num_gaps 1 ≤ g % UINT_MOD)
    (h' : sub_mod UINT_MOD p.num_gaps 1 ≤ g' % UINT_MOD) :
    _mem_remove_from_gap_ix p size node g = _mem_remove_from_gap_ix p size node g' := by
  unfold _mem_remove_from_gap_ix
  cases hn : p.node_heap[node]? with
  | none => rfl
  | some nd =>
    rcases find_position_init p.node_heap p.gap_ix nd.mem size
      (sub_mod UINT_MOD p.num_gaps 1) 0 with h1 | ⟨j, _, h1⟩ | h1
    · simp only [h1]
    · simp only [h1]
    · simp only [h1, not_lt.mpr h, not_lt.mpr h', if_false]

/-- The resize step of `mem_new_alloc` leaves `num_gaps` alone. -/
theorem resize_node_heap_num_gaps (p p1 : pool_mgr_t) (h : _mem_resize_node_heap p = some p1) :
    p1.num_gaps = p.num_gaps := by
  unfold _mem_resize_node_heap at h
  cases h0 : p.node_heap[0]? with
  | none => simp only [h0] at h; cases h
  | some n0 =>
    simp only [h0] at h
    split at h
    · split at h
      · cases h
      · cases h
        show (if p.node_heap.length = MEM_NODE_HEAP_EXPAND_FACTOR * MEM_NODE_HEAP_INIT_CAPACITY
          then p else heap_moved p).num_gaps = p.num_gaps
        split <;> rfl
    · cases h; rfl

/-- The indeterminate value reaches `alloc_commit` only through
`_mem_remove_from_gap_ix`. -/
theorem alloc_commit_garbage_ge (p : pool_mgr_t) (size alloc_node g g' : Nat)
    (h : sub_mod UINT_MOD p.num_gaps 1 ≤ g % UINT_MOD)
    (h' : sub_mod UINT_MOD p.num_gaps 1 ≤ g' % UINT_MOD) :
    alloc_commit p size alloc_node g = alloc_commit p size alloc_node g' := by
  unfold alloc_commit
  simp only []
  rw [remove_garbage_ge { p with
    num_allocs := (p.num_allocs + 1) % UINT_MOD
    alloc_size := (p.alloc_size + size) % SIZE_MOD } size alloc_node g g' h h']

/-- Two indeterminate values at or above `num_gaps - 1` give the same result of
`mem_new_alloc`. -/
theorem mem_new_alloc_garbage_ge (p : pool_mgr_t) (size g g' : Nat)
    (h : sub_mod UINT_MOD p.num_gaps 1 ≤ g % UINT_MOD)
    (h' : sub_mod UINT_MOD p.num_gaps 1 ≤ g' % UINT_MOD) :
    mem_new_alloc p size g = mem_new_alloc p size g' := by
  unfold mem_new_alloc
  cases hr : _mem_resize_node_heap p with
  | none => rfl
  | some p1 =>
    have hn := resize_node_heap_num_gaps p p1 hr
    rw [← hn] at h h'
    simp only [alloc_commit_garbage_ge p1 size _ g g' h h']

/-- Only the `unsigned` conversion of the indeterminate value matters to
`mem_new_alloc`. -/
theorem mem_new_alloc_garbage_mod (p : pool_mgr_t) (size g : Nat) :
    mem_new_alloc p size g = mem_new_alloc p size (g % UINT_MOD) := by
  unfold mem_new_alloc alloc_commit _mem_remove_from_gap_ix
  rw [Nat.mod_mod]

/-- The last call of the BestFit reuse scenario, for every initial value of
`position`: allocating 150 bytes returns slot 1, and the chain and the counters do not
depend on that value (the gap index does). -/
theorem reuse_last_call (g : Nat) :
    ∃ pE, mem_new_alloc reuse_before 150 g = some (pE, some 1) ∧
      (pE.node_heap[1]?).map (fun nd => nd.mem) = some (some 100) ∧
      mem_inspect_pool pE = some ([⟨100, 1⟩, ⟨150, 1⟩, ⟨50, 0⟩, ⟨300, 1⟩, ⟨400, 0⟩], 5) ∧
      pE.num_allocs = 3 ∧ pE.alloc_size = 550 ∧ pE.num_gaps = 2 := by
  rcases Nat.lt_or_ge (g % UINT_MOD) 1 with h | h
  · rw [mem_new_alloc_garbage_mod, Nat.lt_one_iff.mp h]
    exact ⟨_, rfl, rfl, rfl, rfl, rfl, rfl⟩
  · rw [mem_new_alloc_garbage_ge reuse_before 150 g 1 h (by decide)]
    exact ⟨_, rfl, rfl, rfl, rfl, rfl, rfl⟩

/-- The defect of `position` at work in the BestFit reuse scenario: when its initial
value is not 0, the entry removed is the last one, that of the free 400-byte tail
(slot 3), and the entry of the slot being allocated (slot 1) stays.  The gap index then
references slot 4 and the allocated slot 1, and a request for 300 bytes gets no handle
although the 400-byte segment is free on the chain. -/
theorem reuse_loses_free_tail (g g2 : Nat) (h : 1 ≤ g % UINT_MOD) :
    ∃ pE, mem_new_alloc reuse_before 150 g = some (pE, some 1) ∧
      gap_refs pE = [some 4, some 1] ∧ free_slots pE = some [4, 3] ∧
      mem_new_alloc pE 300 g2 = some (pE, none) := by
  rw [mem_new_alloc_garbage_ge reuse_before 150 g 1 h (by decide)]
  exact ⟨_, rfl, rfl, rfl, rfl⟩

/-- The defect of `position` at work on the order of the gap index, in a run without any
resize of the node heap (FIRST_FIT, size 1000, no segment of size 1).  The first
`allocate 150` takes the tail slot 3, the last entry of the index, which the search loop
does not examine: with the initial value 0 the entry of the free slot 0 is removed
instead and that of slot 3 stays.  The second takes slot 2, recorded under 200; with
the initial value 2 no entry is shifted and the last one is cleared.  The index ends as
slots 5, 3, 2 with keys (50, 350), (150, 400), (150, 200). -/
theorem stale_entry_breaks_order :
    ∃ p, run_calls (mem_pool_open 1000 alloc_policy.FIRST_FIT) []
        [call.allocate 100 0, call.allocate 100 0, call.allocate 200 0,
         call.deallocate 0 0 0 0, call.allocate 150 0, call.deallocate 2 0 0 0,
         call.allocate 150 2]
        = some (p, [outcome.handle (some 0), outcome.handle (some 1),
            outcome.handle (some 2), outcome.status alloc_status.ALLOC_OK,
            outcome.handle (some 3), outcome.status alloc_status.ALLOC_OK,
            outcome.handle (some 2)]) ∧
      free_slots p = some [0, 5, 4] ∧
      gap_refs p = [some 5, some 3, some 2] ∧
      gap_keys p = [some (50, some 350), some (150, some 400), some (150, some 200)] ∧
      gap_ix_sorted p = false :=
  ⟨_, rfl, rfl, rfl, rfl, rfl⟩

/-! ## The pool store -/

theorem ins_rev_perm (lt : gap_t → gap_t → Prop) [DecidableRel lt] (e : gap_t) :
    ∀ R : List gap_t, (ins_rev lt R e).Perm (e :: R) := by
  intro R
  induction R with
  | nil => exact List.Perm.refl _
  | cons a rest ih =>
    unfold ins_rev
    split
    · exact (List.Perm.cons a ih).trans (List.Perm.swap e a rest)
    · exact List.Perm.refl _

theorem ins_rev_sublist (lt : gap_t → gap_t → Prop) [DecidableRel lt] (e : gap_t) :
    ∀ R : List gap_t, R.Sublist (ins_rev lt R e) := by
  intro R
  induction R with
  | nil => exact List.nil_sublist _
  | cons a rest ih =>
    unfold ins_rev
    split
    · exact List.Sublist.cons₂ a ih
    · exact List.sublist_cons_self e _

theorem ins_rev_length (lt : gap_t → gap_t → Prop) [DecidableRel lt] (e : gap_t) (R : List gap_t) :
    (ins_rev lt R e).length = R.length + 1 := by
  simpa using (ins_rev_perm lt e R).length_eq

theorem ins_rev_chain (lt : gap_t → gap_t → Prop) [DecidableRel lt] (e : gap_t)
    (hasym : ∀ a b, lt a b → ¬ lt b a) :
    ∀ R : List gap_t, R.Chain' (fun x y => ¬ lt x y) →
      (ins_rev lt R e).Chain' (fun x y => ¬ lt x y) := by
  intro R
  induction R with
  | nil => intro _; simp [ins_rev]
  | cons a rest ih =>
    intro h
    unfold ins_rev
    split
    · rename_i hlt
      have hrest : rest.Chain' (fun x y => ¬ lt x y) := h.tail
      have h2 := ih hrest
      cases rest with
      | nil => simp [ins_rev]; exact hasym _ _ hlt
      | cons b rest2 =>
        have hab : ¬ lt a b := (List.chain'_cons.mp h).1
        unfold ins_rev at h2 ⊢
        split
        · rename_i hlt2
          rw [if_pos hlt2] at h2
          exact List.chain'_cons.mpr ⟨hab, h2⟩
        · rename_i hlt2
          rw [if_neg hlt2] at h2
          exact List.chain'_cons.mpr ⟨hasym _ _ hlt, h2⟩
    · rename_i hlt
      exact List.chain'_cons.mpr ⟨hlt, h⟩

theorem ins_rev_self (lt : gap_t → gap_t → Prop) [DecidableRel lt] (a : gap_t) (R : List gap_t)
    (h : (a :: R).Chain' (fun x y => ¬ lt x y)) : ins_rev lt R a = a :: R := by
  cases R with
  | nil => rfl
  | cons b rest =>
    unfold ins_rev
    rw [if_neg (List.chain'_cons.mp h).1]

theorem ins_rev_cons_pos (lt : gap_t → gap_t → Prop) [DecidableRel lt] (a e : gap_t)
    (R : List gap_t) (h : lt e a) : ins_rev lt (a :: R) e = a :: ins_rev lt R e := by
  rw [ins_rev, if_pos h]

theorem ins_rev_cons_neg (lt : gap_t → gap_t → Prop) [DecidableRel lt] (a e : gap_t)
    (R : List gap_t) (h : ¬ lt e a) : ins_rev lt (a :: R) e = e :: a :: R := by
  rw [ins_rev, if_neg h]

theorem gap_node_eq (heap : List node_t) (gx : List gap_t) (i : Nat) (g : gap_t) (nd : node_t)
    (hg : gx[i]? = some g) (hn : entry_node heap g = some nd) :
    ∃ k, gap_node heap gx i = some (g, k, nd) := by
  unfold gap_node
  rw [hg]
  unfold entry_node at hn
  cases hk : g.node with
  | none => rw [hk] at hn; cases hn
  | some k =>
    rw [hk] at hn
    have hn2 : heap[k]? = some nd := hn
    refine ⟨k, ?_⟩
    simp only [hk, hn2]

theorem mem_lt_asymm (a b : Option Nat) (h : mem_lt a b = true) : mem_lt b a = false := by
  cases a <;> cases b <;> simp [mem_lt] at h ⊢
  omega

theorem node_lt_asymm (a b : node_t) (h : node_lt a b) : ¬ node_lt b a := by
  unfold node_lt at h ⊢
  intro h2
  rcases h with h | ⟨h, he⟩
  · rcases h2 with h2 | ⟨_, h2⟩ <;> omega
  · rcases h2 with h2 | ⟨h2, _⟩
    · omega
    · rw [mem_lt_asymm _ _ h] at h2; cases h2

theorem entry_lt_asymm (heap : List node_t) (a b : gap_t) (h : entry_lt heap a b) :
    ¬ entry_lt heap b a := by
  unfold entry_lt at h ⊢
  cases ha : entry_node heap a with
  | none => rw [ha] at h; exact fun _ => h
  | some na =>
    cases hb : entry_node heap b with
    | none => rw [ha, hb] at h; exact fun _ => h
    | some nb =>
      rw [ha, hb] at h
      simp only []
      exact node_lt_asymm _ _ h

/-- The pass of `_mem_sort_gap_ix` over a sorted prefix followed by one new entry: the
new entry is inserted at its place and the pass does not fail.  `R` is the prefix in
reverse order, `T` the rest of the array. -/
theorem sort_loop_spec (heap : List node_t) : ∀ (R : List gap_t) (e : gap_t) (T : List gap_t),
    (∀ x ∈ e :: R, ∃ nd, entry_node heap x = some nd) →
    R.Chain' (fun x y => ¬ entry_lt heap x y) →
    sort_loop heap R.length (R.reverse ++ e :: T)
      = some ((ins_rev (entry_lt heap) R e).reverse ++ T) := by
  intro R
  induction R with
  | nil => intro e T _ _; rfl
  | cons a rest ih =>
    intro e T hrefs hchain
    obtain ⟨ne, hne⟩ := hrefs e (by simp)
    obtain ⟨na, hna⟩ := hrefs a (by simp)
    have hga : (rest.reverse ++ a :: e :: T)[rest.length]? = some a := by
      rw [List.getElem?_append_right (by simp)]; simp
    have hge : (rest.reverse ++ a :: e :: T)[rest.length + 1]? = some e := by
      rw [List.getElem?_append_right (by simp)]; simp
    obtain ⟨ka, hka⟩ := gap_node_eq heap _ _ a na hga hna
    obtain ⟨ke, hke⟩ := gap_node_eq heap _ _ e ne hge hne
    have hlist : (a :: rest).reverse ++ e :: T = rest.reverse ++ a :: e :: T := by simp
    rw [hlist]
    show sort_loop heap (rest.length + 1) (rest.reverse ++ a :: e :: T) = _
    unfold sort_loop
    rw [hke, hka]
    simp only []
    have hcond : (ne.size < na.size ∨ (mem_lt ne.mem na.mem = true ∧ ne.size = na.size))
        ↔ entry_lt heap e a := by
      unfold entry_lt; rw [hne, hna]; rfl
    by_cases hlt : entry_lt heap e a
    · rw [if_pos (hcond.mpr hlt)]
      have hset : ((rest.reverse ++ a :: e :: T).set rest.length e).set (rest.length + 1) a
          = rest.reverse ++ e :: a :: T := by
        rw [List.set_append_right _ _ (by simp), List.set_append_right _ _ (by simp)]
        simp
      rw [hset]
      have := ih e (a :: T) (fun x hx => hrefs x (by
        rcases List.mem_cons.mp hx with h | h
        · simp [h]
        · simp [h])) hchain.tail
      rw [this, ins_rev_cons_pos _ _ _ _ hlt]
      simp
    · rw [if_neg (fun h => hlt (hcond.mp h))]
      have := ih a (e :: T) (fun x hx => hrefs x (by
        rcases List.mem_cons.mp hx with h | h
        · simp [h]
        · simp [h])) hchain.tail
      rw [this, ins_rev_self _ a rest hchain, ins_rev_cons_neg _ _ _ _ hlt]
      simp

theorem gap_keys_eq (p : pool_mgr_t) :
    gap_keys p = (p.gap_ix.take p.num_gaps).map
      (fun g => (entry_node p.node_heap g).map (fun nd => (nd.size, nd.mem))) := by
  unfold gap_keys gap_refs
  rw [List.map_map]
  apply List.map_congr_left
  intro g _
  simp only [Function.comp, entry_node]
  cases g.node with
  | none => rfl
  | some k =>
    simp only []
    cases h : p.node_heap[k]? <;> rfl

theorem key_le_iff (heap : List node_t) (a b : gap_t) (na nb : node_t)
    (ha : entry_node heap a = some na) (hb : entry_node heap b = some nb) :
    key_le ((entry_node heap a).map (fun nd => (nd.size, nd.mem)))
      ((entry_node heap b).map (fun nd => (nd.size, nd.mem))) = true ↔ ¬ entry_lt heap b a := by
  rw [ha, hb]
  unfold entry_lt
  rw [ha, hb]
  simp only [Option.map, key_le, node_lt]
  cases h : mem_lt nb.mem na.mem <;> simp <;> omega

/-- The adjacent-pair check `gap_ix_sorted` on entries that reference nodes is the chain
condition "no entry goes before its predecessor". -/
theorem sorted_iff_chain (heap : List node_t) : ∀ (l : List gap_t),
    (∀ x ∈ l, ∃ nd, entry_node heap x = some nd) →
    (((l.map (fun g => (entry_node heap g).map (fun nd => (nd.size, nd.mem)))).zip
      (l.map (fun g => (entry_node heap g).map (fun nd => (nd.size, nd.mem)))).tail).all
        (fun ab => key_le ab.1 ab.2) = true
      ↔ l.Chain' (fun x y => ¬ entry_lt heap y x)) := by
  intro l
  induction l with
  | nil => intro _; simp
  | cons a rest ih =>
    intro hv
    cases rest with
    | nil => simp
    | cons b rest2 =>
      obtain ⟨na, hna⟩ := hv a (by simp)
      obtain ⟨nb, hnb⟩ := hv b (by simp)
      have ih2 := ih (fun x hx => hv x (List.mem_cons_of_mem _ hx))
      rw [List.chain'_cons, ← ih2, ← key_le_iff heap a b na nb hna hnb]
      simp [List.all_cons]

theorem resize_gap_ix_spec (p : pool_mgr_t) (hlen : p.gap_ix.length = p.gap_ix_capacity)
    (hcap : p.gap_ix_capacity ≤ 80) :
    ∃ pad, (_mem_resize_gap_ix p).gap_ix = p.gap_ix ++ pad ∧
      (_mem_resize_gap_ix p).num_gaps = p.num_gaps ∧
      (_mem_resize_gap_ix p).node_heap = p.node_heap := by
  unfold _mem_resize_gap_ix
  split
  · refine ⟨List.replicate (80 - p.gap_ix.length) gap_zero, ?_, rfl, rfl⟩
    show realloc_list p.gap_ix (MEM_GAP_IX_EXPAND_FACTOR * MEM_GAP_IX_INIT_CAPACITY) gap_zero = _
    unfold realloc_list
    have : MEM_GAP_IX_EXPAND_FACTOR * MEM_GAP_IX_INIT_CAPACITY = 80 := rfl
    rw [this, List.take_of_length_le (by omega)]
  · exact ⟨[], by simp, rfl, rfl⟩

/-! ## The claims

In the theorems below `γ` supplies the indeterminate initial values of `position`, one
for every call of `_mem_remove_from_gap_ix`: a statement for every `γ` holds whatever
the uninitialised local contains. -/

open call outcome alloc_policy alloc_status

/-- C1 (tiling invariant) fails on the code.  On a FIRST_FIT pool of total size 1 the
first `allocate 1` runs `_mem_resize_node_heap`, whose test `used / size > 0.75` holds
for slot 0 (1 / 1), and which doubles the size of slot 0 instead of the table
capacity.  The 2-byte slot 0 is then split: the chain is (1, allocated), (1, free),
contiguous but 2 bytes long in a pool of 1 byte. -/
theorem tiling_broken_by_node_heap_resize (γ : Nat → Nat) :
    tiles (mem_pool_open 1 FIRST_FIT) = true ∧
    ∃ p, run_calls (mem_pool_open 1 FIRST_FIT) [] [allocate 1 (γ 0)]
        = some (p, [handle (some 0)]) ∧
      p.total_size = 1 ∧
      mem_inspect_pool p = some ([⟨1, 1⟩, ⟨1, 0⟩], 2) ∧
      chain_bytes p = some 2 ∧
      tiles p = false :=
  ⟨rfl, _, rfl, rfl, rfl, rfl, rfl⟩

/-- C2 (accounting invariant) fails on the code.  On a FIRST_FIT pool of total size 1,
after `allocate 1` twice the second call has doubled the size of the allocated slot 0
(`_mem_resize_node_heap`): `alloc_size` is 2 while the allocated chain segments have
sizes 2 and 1, 3 bytes in all.  The count of allocations agrees (2). -/
theorem accounting_broken_by_node_heap_resize (γ : Nat → Nat) :
    ∃ p, run_calls (mem_pool_open 1 FIRST_FIT) [] [allocate 1 (γ 0), allocate 1 (γ 1)]
        = some (p, [handle (some 0), handle (some 1)]) ∧
      mem_inspect_pool p = some ([⟨2, 1⟩, ⟨1, 1⟩], 2) ∧
      p.alloc_size = 2 ∧ allocated_bytes p = some 3 ∧
      p.num_allocs = 2 ∧ allocated_count p = some 2 :=
  ⟨_, rfl, rfl, rfl, rfl, rfl, rfl⟩

/-- A value of the form `x % (UINT_MOD - 1) + 1` is an `unsigned` value other than 0. -/
theorem nonzero_garbage (x : Nat) : 1 ≤ (x % (UINT_MOD - 1) + 1) % UINT_MOD := by
  have h1 : x % (UINT_MOD - 1) < UINT_MOD - 1 := Nat.mod_lt _ (by decide)
  have h2 : x % (UINT_MOD - 1) + 1 < UINT_MOD := by
    have : UINT_MOD - 1 + 1 = UINT_MOD := by decide
    omega
  rw [Nat.mod_eq_of_lt h2]
  omega

/-- The call `allocate 50` on `skip_pool` returns slot 4 whatever `position` starts at. -/
theorem skip_pool_allocate (v : Nat) (hv : v < UINT_MOD) :
    ∃ q, mem_new_alloc skip_pool 50 v = some (q, some 4) ∧
      (q.node_heap[4]?).map (fun nd => (nd.size, nd.allocated)) = some (50, 1) ∧
      (q.node_heap[0]?).map (fun nd => (nd.size, nd.allocated)) = some (100, 0) := by
  by_cases h : v < 1
  · have h0 : v = 0 := by clear hv; omega
    subst h0
    exact ⟨_, rfl, rfl, rfl⟩
  · have hge : 1 ≤ v % UINT_MOD := by
      rw [Nat.mod_eq_of_lt hv]; exact Nat.le_of_not_lt h
    rw [mem_new_alloc_garbage_ge skip_pool 50 v 1 hge (by decide)]
    exact ⟨_, rfl, rfl, rfl⟩

/-- C3 (BestFit selection) fails on the code, on a BEST_FIT pool of size 1000 used with
valid calls only, whatever the uninitialised `position` of `_mem_remove_from_gap_ix`
starts at.

When `position` starts at a value other than 0 (written `γ 6 % (UINT_MOD - 1) + 1`):
after allocate 100, 200, 300 and the deallocate of the 200-byte segment, `allocate 150`
returns slot 1, and `_mem_remove_from_gap_ix`, whose search loop leaves out the last
entry, deletes the entry of the free 400-byte tail (slot 3) in place of the entry of
slot 1.  The chain then has the free segments slot 4 (50 bytes) and slot 3 (400 bytes),
the gap index refers to the slots 4 and 1, and `allocate 300` returns no handle although
the free in-chain segment slot 3 has size 400 and the node heap holds 5 of its 40
nodes.

When `position` starts at 0: after allocate 100, 200, 300, the deallocate of the
100-byte segment and `allocate 150` (which takes the 400-byte tail and deletes the entry
of slot 0 in place of the entry of the tail), the free segments are slot 0 (100 bytes,
address 0) and slot 4 (250 bytes), and the gap index refers to slot 3 (allocated) and
slot 4.  `allocate 50` then returns slot 4, of size 250, although the free in-chain
segment slot 0 has size 100, at least 50 and strictly smaller. -/
theorem best_fit_misses_free_segment (γ : Nat → Nat) :
    (∃ pE, run_calls (mem_pool_open 1000 BEST_FIT) []
        [allocate 100 (γ 0), allocate 200 (γ 1), allocate 300 (γ 2),
         deallocate 1 (γ 3) (γ 4) (γ 5)]
        = some (reuse_before,
          [handle (some 0), handle (some 1), handle (some 2), status ALLOC_OK]) ∧
      mem_new_alloc reuse_before 150 (γ 6 % (UINT_MOD - 1) + 1) = some (pE, some 1) ∧
      mem_inspect_pool pE = some ([⟨100, 1⟩, ⟨150, 1⟩, ⟨50, 0⟩, ⟨300, 1⟩, ⟨400, 0⟩], 5) ∧
      free_slots pE = some [4, 3] ∧ gap_refs pE = [some 4, some 1] ∧
      pE.used_nodes = 5 ∧ pE.total_nodes = 40 ∧
      mem_new_alloc pE 300 (γ 7) = some (pE, none)) ∧
    (∃ q, run_calls (mem_pool_open 1000 BEST_FIT) []
        [allocate 100 (γ 8), allocate 200 (γ 9), allocate 300 (γ 10),
         deallocate 0 (γ 11) (γ 12) (γ 13), allocate 150 0]
        = some (skip_pool, [handle (some 0), handle (some 1), handle (some 2),
            status ALLOC_OK, handle (some 3)]) ∧
      mem_inspect_pool skip_pool
        = some ([⟨100, 0⟩, ⟨200, 1⟩, ⟨300, 1⟩, ⟨150, 1⟩, ⟨250, 0⟩], 5) ∧
      free_slots skip_pool = some [0, 4] ∧ gap_refs skip_pool = [some 3, some 4] ∧
      (skip_pool.node_heap[0]?).map (fun nd => (nd.size, nd.used, nd.allocated))
        = some (100, 1, 0) ∧
      (skip_pool.node_heap[4]?).map (fun nd => (nd.size, nd.used, nd.allocated))
        = some (250, 1, 0) ∧
      mem_new_alloc skip_pool 50 (γ 14) = some (q, some 4) ∧
      (q.node_heap[4]?).map (fun nd => (nd.size, nd.allocated)) = some (50, 1) ∧
      (q.node_heap[0]?).map (fun nd => (nd.size, nd.allocated)) = some (100, 0)) := by
  refine ⟨?_, ?_⟩
  · rw [mem_new_alloc_garbage_ge reuse_before 150 (γ 6 % (UINT_MOD - 1) + 1) 1
      (nonzero_garbage (γ 6)) (by decide)]
    exact ⟨_, rfl, rfl, rfl, rfl, rfl, rfl, rfl, rfl⟩
  · obtain ⟨q, h1, h2, h3⟩ :=
      skip_pool_allocate (γ 14 % UINT_MOD) (Nat.mod_lt _ (by decide))
    rw [← mem_new_alloc_garbage_mod skip_pool 50 (γ 14)] at h1
    exact ⟨q, rfl, rfl, rfl, rfl, rfl, rfl, h1, h2, h3⟩

/-- C4 (FirstFit selection) fails on the code.  In a fresh FIRST_FIT pool of total size 1
(`used_nodes` 1 below `total_nodes` 40) no slot is in use, free and of size at least 2,
so `allocate 2` is to return no handle; it returns slot 0, whose size the resize step
doubled before the scan. -/
theorem first_fit_returns_undersized (γ : Nat → Nat) :
    (mem_pool_open 1 FIRST_FIT).used_nodes < (mem_pool_open 1 FIRST_FIT).total_nodes ∧
    lowest_fit (mem_pool_open 1 FIRST_FIT) 2 = none ∧
    lowest_fit (mem_pool_open 1 FIRST_FIT) 1 = some 0 ∧
    ∃ p, mem_new_alloc (mem_pool_open 1 FIRST_FIT) 2 (γ 0) = some (p, some 0) ∧
      mem_inspect_pool p = some ([⟨2, 1⟩], 1) :=
  ⟨by decide, rfl, rfl, _, rfl, rfl⟩

/-- C5 (coalescing) fails on the code.  On a FIRST_FIT pool of total size 1 the calls
allocate 1, allocate 1, deallocate slot 0, allocate 1, allocate 1 return the handles
0, 1, 0, 2 and leave the chain slot 0, slot 2, slot 1, all allocated; slots 1 and 2
both have address 1, because slot 0 was split again after its size was doubled.
`deallocate` of the handle slot 2 looks the node up by address, finds slot 1 first and
frees it: the call returns OK, slot 2 is still allocated, and the segment freed is the
one of the live handle slot 1. -/
theorem deallocate_frees_other_segment (γ : Nat → Nat) :
    ∃ p q, run_calls (mem_pool_open 1 FIRST_FIT) []
        [allocate 1 (γ 0), allocate 1 (γ 1), deallocate 0 (γ 2) (γ 3) (γ 4),
         allocate 1 (γ 5), allocate 1 (γ 6)]
        = some (p, [handle (some 0), handle (some 1), status ALLOC_OK,
            handle (some 0), handle (some 2)]) ∧
      chain p = some [0, 2, 1] ∧
      mem_inspect_pool p = some ([⟨2, 1⟩, ⟨1, 1⟩, ⟨1, 1⟩], 3) ∧
      (p.node_heap[1]?).map (fun nd => nd.mem) = some (some 1) ∧
      (p.node_heap[2]?).map (fun nd => nd.mem) = some (some 1) ∧
      mem_del_alloc p 2 (γ 7) (γ 8) (γ 9) = some (q, ALLOC_OK) ∧
      chain q = some [0, 2, 1] ∧
      mem_inspect_pool q = some ([⟨2, 1⟩, ⟨1, 1⟩, ⟨1, 0⟩], 3) ∧
      (q.node_heap[2]?).map (fun nd => nd.allocated) = some 1 ∧
      (q.node_heap[1]?).map (fun nd => nd.allocated) = some 0 :=
  ⟨_, _, rfl, rfl, rfl, rfl, rfl, rfl, rfl, rfl, rfl, rfl⟩

/-- C6 (allocate/free round trip) fails on the code.  From a fresh FIRST_FIT pool of
total size 1, whose chain is one free segment of size 1, `allocate 1` returns slot 0
and `deallocate` of it returns OK, but the chain is then one free segment of size 2: the
allocate doubled slot 0 and split it, and the free merged the two halves.  `num_gaps`,
`alloc_size` and `num_allocs` are back to 1, 0 and 0. -/
theorem round_trip_grows_segment (γ : Nat → Nat) :
    mem_inspect_pool (mem_pool_open 1 FIRST_FIT) = some ([⟨1, 0⟩], 1) ∧
    ∃ p, run_calls (mem_pool_open 1 FIRST_FIT) []
        [allocate 1 (γ 0), deallocate 0 (γ 1) (γ 2) (γ 3)]
        = some (p, [handle (some 0), status ALLOC_OK]) ∧
      mem_inspect_pool p = some ([⟨2, 0⟩], 1) ∧
      p.num_gaps = 1 ∧ p.alloc_size = 0 ∧ p.num_allocs = 0 :=
  ⟨rfl, _, rfl, rfl, rfl, rfl, rfl⟩

/-- C7 (Free Index membership) fails on the code.  On a FIRST_FIT pool of total size 1,
allocate 1, allocate 1, deallocate slot 0, allocate 1, allocate 1 return the handles
0, 1, 0, 2, and the handles 1 and 2 carry the same address (slot 0 was split a second
time after its size was doubled).  `deallocate` of handle 1 frees slot 1.  `deallocate`
of handle 2, live and never freed, looks the node up by address, finds the free slot 1
and adds it to the gap index again: the index holds two entries for the one free
segment slot 1, and slot 2 stays allocated. -/
theorem gap_ix_holds_segment_twice (γ : Nat → Nat) :
    ∃ p, run_calls (mem_pool_open 1 FIRST_FIT) []
        [allocate 1 (γ 0), allocate 1 (γ 1), deallocate 0 (γ 2) (γ 3) (γ 4),
         allocate 1 (γ 5), allocate 1 (γ 6), deallocate 1 (γ 7) (γ 8) (γ 9),
         deallocate 2 (γ 10) (γ 11) (γ 12)]
        = some (p, [handle (some 0), handle (some 1), status ALLOC_OK,
            handle (some 0), handle (some 2), status ALLOC_OK, status ALLOC_OK]) ∧
      chain p = some [0, 2, 1] ∧
      free_slots p = some [1] ∧
      p.num_gaps = 2 ∧
      gap_refs p = [some 1, some 1] ∧
      gap_ix_exact p = false :=
  ⟨_, rfl, rfl, rfl, rfl, rfl, rfl⟩

/-- C8 (free-segment counter) fails on the code.  After the same seven calls on a
FIRST_FIT pool of total size 1 the chain is (2, allocated), (1, allocated), (1, free):
one segment is not allocated, but `num_gaps` is 2, and `num_allocs` is 1 with two
segments allocated.  Before the last call the counters were right (`num_gaps` 1,
`num_allocs` 2); the last `deallocate`, of the live handle slot 2, found the free slot 1
by address and counted it a second time. -/
theorem num_gaps_exceeds_free_segments (γ : Nat → Nat) :
    ∃ p q, run_calls (mem_pool_open 1 FIRST_FIT) []
        [allocate 1 (γ 0), allocate 1 (γ 1), deallocate 0 (γ 2) (γ 3) (γ 4),
         allocate 1 (γ 5), allocate 1 (γ 6), deallocate 1 (γ 7) (γ 8) (γ 9)]
        = some (p, [handle (some 0), handle (some 1), status ALLOC_OK,
            handle (some 0), handle (some 2), status ALLOC_OK]) ∧
      mem_inspect_pool p = some ([⟨2, 1⟩, ⟨1, 1⟩, ⟨1, 0⟩], 3) ∧
      p.num_gaps = 1 ∧ p.num_allocs = 2 ∧
      mem_del_alloc p 2 (γ 10) (γ 11) (γ 12) = some (q, ALLOC_OK) ∧
      mem_inspect_pool q = some ([⟨2, 1⟩, ⟨1, 1⟩, ⟨1, 0⟩], 3) ∧
      q.num_gaps = 2 ∧ (free_slots q).map List.length = some 1 ∧
      q.num_allocs = 1 ∧ allocated_count q = some 2 :=
  ⟨_, _, rfl, rfl, rfl, rfl, rfl, rfl, rfl, rfl, rfl, rfl⟩

/-- The run of `order_calls` on a FIRST_FIT pool of size 1: every call returns as
listed and the pool reached is `order_pool`, whatever the indeterminate values. -/
theorem order_calls_run (γ : Nat → Nat) :
    run_calls (mem_pool_open 1 FIRST_FIT) [] (order_calls γ)
      = some (order_pool,
          [handle (some 0), handle (some 1), status ALLOC_OK, handle (some 0),
           handle (some 2), status ALLOC_OK, handle (some 0), handle (some 3),
           status ALLOC_OK, handle (some 0), handle none, status ALLOC_OK, status ALLOC_OK,
           status ALLOC_OK, status ALLOC_OK]) := rfl

/-- The two calls `allocate 1` after `order_calls`, by the value `v` at which `position`
starts in the first of them: 0, 1 or 2, or 3 and more. -/
theorem order_last_calls (v g : Nat) (hvlt : v < UINT_MOD) :
    ∃ p1, mem_new_alloc order_pool 1 v = some (p1, some 0) ∧
      free_slots p1 = some [4, 1] ∧
      ((gap_refs p1 = [some 0, some 1, some 1, some 4] ∧
          gap_keys p1
            = [some (1, some 0), some (1, some 1), some (1, some 1), some (2, some 1)] ∧
          ∃ p2, mem_new_alloc p1 1 g = some (p2, some 1) ∧
            free_slots p2 = some [4] ∧
            gap_refs p2 = [some 0, some 1, some 4] ∧
            gap_keys p2 = [some (2, some 0), some (1, some 1), some (2, some 1)] ∧
            gap_ix_sorted p2 = false) ∨
        (gap_refs p1 = [some 0, some 4, some 1, some 4] ∧
          gap_keys p1
            = [some (1, some 0), some (2, some 1), some (1, some 1), some (2, some 1)] ∧
          gap_ix_sorted p1 = false) ∨
        (gap_refs p1 = [some 1, some 4, some 1, some 4] ∧
          gap_keys p1
            = [some (1, some 1), some (2, some 1), some (1, some 1), some (2, some 1)] ∧
          gap_ix_sorted p1 = false)) := by
  by_cases h : v < 3
  · have h3 : v = 0 ∨ v = 1 ∨ v = 2 := by clear hvlt; omega
    rcases h3 with e | e | e <;> subst e
    · exact ⟨_, rfl, rfl, Or.inl ⟨rfl, rfl, _, rfl, rfl, rfl, rfl, rfl⟩⟩
    · exact ⟨_, rfl, rfl, Or.inr (Or.inl ⟨rfl, rfl, rfl⟩)⟩
    · exact ⟨_, rfl, rfl, Or.inr (Or.inl ⟨rfl, rfl, rfl⟩)⟩
  · have hge : 3 ≤ v % UINT_MOD := by
      rw [Nat.mod_eq_of_lt hvlt]; exact Nat.le_of_not_lt h
    rw [mem_new_alloc_garbage_ge order_pool 1 v 3 hge (by decide)]
    exact ⟨_, rfl, rfl, Or.inr (Or.inr ⟨rfl, rfl, rfl⟩)⟩

/-- C9 (Free Index order) fails on the code, whatever the uninitialised `position` of
`_mem_remove_from_gap_ix` starts at.  On a FIRST_FIT pool of size 1 the fifteen calls of
`order_calls` (allocates of 1 or 2 bytes and deallocates of live handles) all return,
with the same result for all indeterminate values, and leave the chain as slots
0, 3, 2, 1 with the gap index referring to the slots 4, 1, 1, 0.  The next call `allocate 1` returns slot 0 and gives
the rest of it to slot 4.  The entry of slot 0 is the last one, which the search loop
of `_mem_remove_from_gap_ix` leaves out, so `position` keeps its initial value (`γ 29`,
as an `unsigned`), and after the call:
* from 1 or 2, the gap index refers to the slots 0, 4, 1, 4, whose sizes are
  1, 2, 1, 2;
* from 3 or more, it refers to the slots 1, 4, 1, 4, whose sizes are 1, 2, 1, 2;
* from 0, it refers to the slots 0, 1, 1, 4 with sizes 1, 1, 1, 2, and one more
  `allocate 1` returns slot 1 and leaves the entries of the slots 0, 1, 4 with sizes
  2, 1, 2, whatever `position` starts at in that call.
In each case the entries `gap_ix[0 .. num_gaps)` are not in ascending order of segment
size after a call of the run. -/
theorem gap_ix_out_of_order (γ : Nat → Nat) :
    ∃ p1, run_calls (mem_pool_open 1 FIRST_FIT) [] (order_calls γ)
        = some (order_pool,
          [handle (some 0), handle (some 1), status ALLOC_OK, handle (some 0),
           handle (some 2), status ALLOC_OK, handle (some 0), handle (some 3),
           status ALLOC_OK, handle (some 0), handle none, status ALLOC_OK, status ALLOC_OK,
           status ALLOC_OK, status ALLOC_OK]) ∧
      chain order_pool = some [0, 3, 2, 1] ∧
      mem_inspect_pool order_pool = some ([⟨3, 0⟩, ⟨1, 1⟩, ⟨1, 1⟩, ⟨1, 0⟩], 4) ∧
      gap_refs order_pool = [some 4, some 1, some 1, some 0] ∧
      mem_new_alloc order_pool 1 (γ 29) = some (p1, some 0) ∧
      free_slots p1 = some [4, 1] ∧
      ((gap_refs p1 = [some 0, some 1, some 1, some 4] ∧
          gap_keys p1
            = [some (1, some 0), some (1, some 1), some (1, some 1), some (2, some 1)] ∧
          ∃ p2, mem_new_alloc p1 1 (γ 30) = some (p2, some 1) ∧
            free_slots p2 = some [4] ∧
            gap_refs p2 = [some 0, some 1, some 4] ∧
            gap_keys p2 = [some (2, some 0), some (1, some 1), some (2, some 1)] ∧
            gap_ix_sorted p2 = false) ∨
        (gap_refs p1 = [some 0, some 4, some 1, some 4] ∧
          gap_keys p1
            = [some (1, some 0), some (2, some 1), some (1, some 1), some (2, some 1)] ∧
          gap_ix_sorted p1 = false) ∨
        (gap_refs p1 = [some 1, some 4, some 1, some 4] ∧
          gap_keys p1
            = [some (1, some 1), some (2, some 1), some (1, some 1), some (2, some 1)] ∧
          gap_ix_sorted p1 = false)) := by
  obtain ⟨p1, h1, h2, h3⟩ :=
    order_last_calls (γ 29 % UINT_MOD) (γ 30) (Nat.mod_lt _ (by decide))
  rw [← mem_new_alloc_garbage_mod order_pool 1 (γ 29)] at h1
  exact ⟨p1, order_calls_run γ, rfl, rfl, rfl, h1, h2, h3⟩

/-- C10 (BestFit reuse scenario) holds, for every initial value of the uninitialised
`position`.  On a BEST_FIT pool of size 1000, allocate 100, 200, 300 return the handles
A, B, C (slots 0, 1, 2) and deallocate B returns OK; allocate 150 then returns slot 1,
the segment of B at B's address 100, and the chain is (100, allocated),
(150, allocated), (50, free), (300, allocated), (400, free) with `num_allocs` 3,
`alloc_size` 550 and `num_gaps` 2. -/
theorem bestfit_reuse_scenario (γ : Nat → Nat) :
    ∃ pB pD pE,
      run_calls (mem_pool_open 1000 BEST_FIT) [] [allocate 100 (γ 0), allocate 200 (γ 1)]
        = some (pB, [handle (some 0), handle (some 1)]) ∧
      (pB.node_heap[1]?).map (fun nd => nd.mem) = some (some 100) ∧
      run_calls (mem_pool_open 1000 BEST_FIT) []
        [allocate 100 (γ 0), allocate 200 (γ 1), allocate 300 (γ 2),
         deallocate 1 (γ 3) (γ 4) (γ 5)]
        = some (pD, [handle (some 0), handle (some 1), handle (some 2), status ALLOC_OK]) ∧
      mem_new_alloc pD 150 (γ 6) = some (pE, some 1) ∧
      (pE.node_heap[1]?).map (fun nd => nd.mem) = some (some 100) ∧
      mem_inspect_pool pE = some ([⟨100, 1⟩, ⟨150, 1⟩, ⟨50, 0⟩, ⟨300, 1⟩, ⟨400, 0⟩], 5) ∧
      pE.num_allocs = 3 ∧ pE.alloc_size = 550 ∧ pE.num_gaps = 2 := by
  obtain ⟨pE, h1, h2, h3, h4, h5, h6⟩ := reuse_last_call (γ 6)
  exact ⟨_, reuse_before, pE, rfl, rfl, rfl, h1, h2, h3, h4, h5, h6⟩

/-- The scenario of C11 at its own witness size: on a pool of size 500, under either
policy and for every initial value of `position`, allocate 500 returns slot 0 without a
split (the chain is (500, allocated), `num_gaps` is 0), a further allocate of any size
returns no handle and changes nothing, and deallocate gives back the single free
segment (500, free) with `num_gaps` 1, `num_allocs` 0 and `alloc_size` 0. -/
theorem exact_fit_scenario_500 (γ : Nat → Nat) (policy : alloc_policy) (s : Nat) :
    ∃ p q, mem_new_alloc (mem_pool_open 500 policy) 500 (γ 0) = some (p, some 0) ∧
      mem_inspect_pool p = some ([⟨500, 1⟩], 1) ∧ p.num_gaps = 0 ∧
      mem_new_alloc p s (γ 1) = some (p, none) ∧
      mem_del_alloc p 0 (γ 2) (γ 3) (γ 4) = some (q, ALLOC_OK) ∧
      mem_inspect_pool q = some ([⟨500, 0⟩], 1) ∧ q.num_gaps = 1 ∧ q.num_allocs = 0 ∧
      q.alloc_size = 0 := by
  cases policy <;> exact ⟨_, _, rfl, rfl, rfl, rfl, rfl, rfl, rfl, rfl, rfl⟩

/-- C11 (whole-pool exact fit) fails on the code for the pool size n = 1.  On a freshly
opened FIRST_FIT pool of size 1, `allocate 1` first runs `_mem_resize_node_heap`, which
doubles the size of slot 0 to 2; the allocation then splits it.  The chain is
(1, allocated), (1, free) and not the single segment (1, allocated), `num_gaps` is 1
and not 0, and a further `allocate 1` returns a handle (slot 1) instead of none. -/
theorem exact_fit_splits_pool_of_one (γ : Nat → Nat) :
    ∃ p q, mem_new_alloc (mem_pool_open 1 FIRST_FIT) 1 (γ 0) = some (p, some 0) ∧
      mem_inspect_pool p = some ([⟨1, 1⟩, ⟨1, 0⟩], 2) ∧ p.num_gaps = 1 ∧
      mem_new_alloc p 1 (γ 1) = some (q, some 1) :=
  ⟨_, _, rfl, rfl, rfl, rfl⟩

/-- C12 (failed allocate is atomic) fails on the code.  On a freshly opened FIRST_FIT
pool of size 1 (one free segment of 1 byte), `allocate 5` returns no handle, yet the
call has run `_mem_resize_node_heap`: the size of slot 0 is 2 afterwards, so the chain is
(2, free) where it was (1, free), and the node heap has been reallocated to 80 slots. -/
theorem failed_allocate_changes_pool (γ : Nat → Nat) :
    mem_inspect_pool (mem_pool_open 1 FIRST_FIT) = some ([⟨1, 0⟩], 1) ∧
    (mem_pool_open 1 FIRST_FIT).node_heap.length = 40 ∧
    ∃ q, mem_new_alloc (mem_pool_open 1 FIRST_FIT) 5 (γ 0) = some (q, none) ∧
      mem_inspect_pool q = some ([⟨2, 0⟩], 1) ∧ q.node_heap.length = 80 ∧
      q ≠ mem_pool_open 1 FIRST_FIT :=
  ⟨rfl, rfl, _, rfl, rfl, rfl, by decide⟩

/-- C13 (stale handle rejection) fails on the code.  On a FIRST_FIT pool of size 1000,
allocate 100 and allocate 100 return the handles 0 and 1, and deallocate of handle 0
returns OK: the chain is (100, free), (100, allocated), (800, free) with `num_allocs` 1,
`alloc_size` 100 and `num_gaps` 2.  A second deallocate of handle 0 returns OK again,
not NOT_FREED, and changes the counters: `num_allocs` is 0, `alloc_size` is 0 and
`num_gaps` is 3, while the segment of handle 1 is still allocated. -/
theorem second_deallocate_returns_ok (γ : Nat → Nat) :
    ∃ p q, run_calls (mem_pool_open 1000 FIRST_FIT) []
        [allocate 100 (γ 0), allocate 100 (γ 1), deallocate 0 (γ 2) (γ 3) (γ 4)]
        = some (p, [handle (some 0), handle (some 1), status ALLOC_OK]) ∧
      mem_inspect_pool p = some ([⟨100, 0⟩, ⟨100, 1⟩, ⟨800, 0⟩], 3) ∧
      p.num_allocs = 1 ∧ p.alloc_size = 100 ∧ p.num_gaps = 2 ∧
      mem_del_alloc p 0 (γ 5) (γ 6) (γ 7) = some (q, ALLOC_OK) ∧
      mem_inspect_pool q = some ([⟨100, 0⟩, ⟨100, 1⟩, ⟨800, 0⟩], 3) ∧
      q.num_allocs = 0 ∧ q.alloc_size = 0 ∧ q.num_gaps = 3 :=
  ⟨_, _, rfl, rfl, rfl, rfl, rfl, rfl, rfl, rfl, rfl, rfl⟩

/-- C15 (split postcondition) fails on the code.  On a FIRST_FIT pool of size 100 the
valid calls allocate 50, allocate 50, deallocate slot 0, allocate 1 all return, with the
same result for all indeterminate values, and leave the chain slot 0 (1 byte,
allocated), slot 2 (49 bytes, free, address 1), slot 1 (50 bytes, allocated), in a node
heap of 40 slots.  The call
`allocate 10` finds slot 0 with `used / size` at 1 / 1, so `_mem_resize_node_heap`
reallocates the node heap to 80 slots: the heap moves, and the links of slot 2 still
point to the slots 1 and 0 of the freed block (written 81 and 80).  The search then
chooses the free segment slot 2, of size 49 above 10, and the split runs
`alloc_node->next->prev = gap_node` through the dangling `next` of slot 2: the `prev`
link of the former successor, slot 1 of the new heap, is not set to the new segment, and
the behaviour of the call is undefined, whatever `position` starts at. -/
theorem split_follows_dangling_link (γ : Nat → Nat) :
    ∃ p p1, run_calls (mem_pool_open 100 FIRST_FIT) []
        [allocate 50 (γ 0), allocate 50 (γ 1), deallocate 0 (γ 2) (γ 3) (γ 4), allocate 1 (γ 5)]
        = some (p, [handle (some 0), handle (some 1), status ALLOC_OK, handle (some 0)]) ∧
      chain p = some [0, 2, 1] ∧
      mem_inspect_pool p = some ([⟨1, 1⟩, ⟨49, 0⟩, ⟨50, 1⟩], 3) ∧
      p.node_heap[2]? = some ⟨49, some 1, 1, 0, some 1, some 0⟩ ∧
      p.node_heap.length = 40 ∧ p.used_nodes = 3 ∧ p.total_nodes = 40 ∧ p.num_gaps = 1 ∧
      _mem_resize_node_heap p = some p1 ∧
      p1.node_heap.length = 80 ∧
      p1.node_heap[2]? = some ⟨49, some 1, 1, 0, some 81, some 80⟩ ∧
      p1.node_heap[81]? = none ∧
      alloc_search p1 10 = some (some 2) ∧
      alloc_commit p1 10 2 (γ 6) = none ∧
      mem_new_alloc p 10 (γ 6) = none :=
  ⟨_, _, rfl, rfl, rfl, rfl, rfl, rfl, rfl, rfl, rfl, rfl, rfl, rfl, rfl, rfl, rfl⟩

/-- C16 (Segment Table growth trigger) fails on the code, in both directions.  After 31
one-byte allocations on a FIRST_FIT pool of size 1000, `used_nodes / total_nodes` is
32 / 40, above 0.75, and the next allocate leaves `total_nodes` at 40: the capacity is
not doubled.  On a freshly opened pool of size 1, `used_nodes / total_nodes` is 1 / 40,
below the threshold, and `_mem_resize_node_heap` changes a segment field: the size of
slot 0 becomes 2. -/
theorem node_heap_growth_keeps_total_nodes (γ : Nat → Nat) :
    (∃ p q, run_calls (mem_pool_open 1000 FIRST_FIT) []
        ((List.range 31).map (fun i => allocate 1 (γ i)))
        = some (p, (List.range 31).map (fun i => handle (some i))) ∧
      p.used_nodes = 32 ∧ p.total_nodes = 40 ∧
      (_mem_resize_node_heap p).map (fun r => r.total_nodes) = some 40 ∧
      mem_new_alloc p 1 (γ 31) = some (q, some 31) ∧ q.total_nodes = 40 ∧
      q.used_nodes = 33) ∧
    (mem_pool_open 1 FIRST_FIT).used_nodes = 1 ∧
    (mem_pool_open 1 FIRST_FIT).total_nodes = 40 ∧
    ((mem_pool_open 1 FIRST_FIT).node_heap[0]?).map (fun nd => nd.size) = some 1 ∧
    ∃ r, _mem_resize_node_heap (mem_pool_open 1 FIRST_FIT) = some r ∧
      (r.node_heap[0]?).map (fun nd => nd.size) = some 2 ∧ r.total_nodes = 40 :=
  ⟨⟨_, _, rfl, rfl, rfl, rfl, rfl, rfl, rfl⟩, rfl, rfl, rfl, _, rfl, rfl, rfl⟩

/-- C17 (Free Index remove) fails on the code for an entry in the last position.  In
the gap index of `reuse_before`, with the entries (200, slot 1), (400, slot 3), the call
`_mem_remove_from_gap_ix(pool, 400, slot 3)` never looks at the last entry, so
`position` keeps its indeterminate initial value.  When that value is 0 the entry
removed is the one of slot 1: the index is left with (400, slot 3), the entry that was
to be deleted.  (With a value of 1 or more the last entry is cleared, as claimed.) -/
theorem remove_last_entry_removes_other :
    (reuse_before.gap_ix.take reuse_before.num_gaps) = [⟨200, some 1⟩, ⟨400, some 3⟩] ∧
    (∃ q, _mem_remove_from_gap_ix reuse_before 400 3 0 = some q ∧
      q.num_gaps = 1 ∧ q.gap_ix.take 2 = [⟨400, some 3⟩, ⟨0, none⟩]) ∧
    (∃ q, _mem_remove_from_gap_ix reuse_before 400 3 1 = some q ∧
      q.num_gaps = 1 ∧ q.gap_ix.take 2 = [⟨200, some 1⟩, ⟨0, none⟩]) :=
  ⟨rfl, ⟨_, rfl, rfl, rfl⟩, ⟨_, rfl, rfl, rfl⟩⟩

/-- C18 (Free Index insert).  Let the gap index have the recorded capacity as its length
(40 as opened, or 80 after its growth), let its `k = num_gaps` entries, `k` below the
capacity, reference nodes of the heap and be sorted ascending by (size, address) of
these nodes.  Then `_mem_add_to_gap_ix(pool, size, node)` returns, `num_gaps` is
`k + 1`, the `k + 1` entries are a permutation of the old entries and `(size, node)`,
they are sorted, and the old entries are a sublist of them (their relative order is
kept).  The order is that of the nodes' own sizes; the recorded `size` plays no part
in it. -/
theorem add_to_gap_ix_sorted (p : pool_mgr_t) (size node : Nat) (nd : node_t)
    (hlen : p.gap_ix.length = p.gap_ix_capacity) (hcap : p.gap_ix_capacity ≤ 80)
    (hk : p.num_gaps < p.gap_ix_capacity)
    (hnode : p.node_heap[node]? = some nd)
    (hvalid : ∀ x ∈ p.gap_ix.take p.num_gaps, ∃ n, entry_node p.node_heap x = some n)
    (hsorted : gap_ix_sorted p = true) :
    ∃ q, _mem_add_to_gap_ix p size node = some q ∧
      q.num_gaps = p.num_gaps + 1 ∧
      q.node_heap = p.node_heap ∧
      (q.gap_ix.take q.num_gaps).Perm (p.gap_ix.take p.num_gaps ++ [⟨size, some node⟩]) ∧
      (p.gap_ix.take p.num_gaps).Sublist (q.gap_ix.take q.num_gaps) ∧
      gap_ix_sorted q = true := by
  obtain ⟨pad, hpad, hng, hheap⟩ := resize_gap_ix_spec p hlen hcap
  have hklen : p.num_gaps < p.gap_ix.length := by omega
  -- the array as the prefix, the slot written, and the rest
  obtain ⟨t0, T, hsplit⟩ : ∃ t0 T, p.gap_ix = p.gap_ix.take p.num_gaps ++ t0 :: T := by
    have h1 := List.take_append_drop p.num_gaps p.gap_ix
    cases hd : p.gap_ix.drop p.num_gaps with
    | nil =>
      have := congrArg List.length hd
      simp at this; omega
    | cons t0 T => rw [hd] at h1; exact ⟨t0, T, h1.symm⟩
  have hAlen : (p.gap_ix.take p.num_gaps).length = p.num_gaps := by
    rw [List.length_take]; omega
  have hchain : (p.gap_ix.take p.num_gaps).Chain' (fun x y => ¬ entry_lt p.node_heap y x) := by
    unfold gap_ix_sorted at hsorted
    simp only [gap_keys_eq] at hsorted
    exact (sorted_iff_chain p.node_heap _ hvalid).mp hsorted
  have hRchain : (p.gap_ix.take p.num_gaps).reverse.Chain' (fun x y => ¬ entry_lt p.node_heap x y) :=
    List.chain'_reverse.mpr hchain
  have hnew : entry_node p.node_heap ⟨size, some node⟩ = some nd := hnode
  have hrefs : ∀ x ∈ (⟨size, some node⟩ : gap_t) :: (p.gap_ix.take p.num_gaps).reverse,
      ∃ n, entry_node p.node_heap x = some n := by
    intro x hx
    rcases List.mem_cons.mp hx with h | h
    · exact ⟨nd, by rw [h]; exact hnew⟩
    · exact hvalid x (List.mem_reverse.mp h)
  have hspec := sort_loop_spec p.node_heap (p.gap_ix.take p.num_gaps).reverse ⟨size, some node⟩
    (T ++ pad) hrefs hRchain
  rw [List.reverse_reverse, List.length_reverse, hAlen] at hspec
  have hset : gap_set (_mem_resize_gap_ix p).gap_ix (_mem_resize_gap_ix p).num_gaps ⟨size, some node⟩
      = some (p.gap_ix.take p.num_gaps ++ (⟨size, some node⟩ : gap_t) :: (T ++ pad)) := by
    unfold gap_set
    rw [hpad, hng, if_pos (by rw [List.length_append]; omega)]
    conv_lhs => rw [hsplit]
    rw [List.append_assoc, List.set_append_right _ _ (by rw [hAlen])]
    simp [hAlen]
  have hmod : ((_mem_resize_gap_ix p).num_gaps + 1) % UINT_MOD = p.num_gaps + 1 := by
    rw [hng]; apply Nat.mod_eq_of_lt; simp only [UINT_MOD]; omega
  unfold _mem_add_to_gap_ix
  simp only [hset, hmod]
  unfold _mem_sort_gap_ix
  simp only [Nat.add_sub_cancel, hheap, hspec]
  have hrl : (ins_rev (entry_lt p.node_heap) (p.gap_ix.take p.num_gaps).reverse
      ⟨size, some node⟩).reverse.length = p.num_gaps + 1 := by
    rw [List.length_reverse, ins_rev_length, List.length_reverse, hAlen]
  have htake : ((ins_rev (entry_lt p.node_heap) (p.gap_ix.take p.num_gaps).reverse
      ⟨size, some node⟩).reverse ++ (T ++ pad)).take (p.num_gaps + 1)
      = (ins_rev (entry_lt p.node_heap) (p.gap_ix.take p.num_gaps).reverse
        ⟨size, some node⟩).reverse := by
    rw [List.take_append_of_le_length (by omega), List.take_of_length_le (by omega)]
  refine ⟨_, rfl, rfl, rfl, ?_, ?_, ?_⟩
  · show (List.take (p.num_gaps + 1) _).Perm _
    rw [htake]
    refine (List.reverse_perm _).trans ((ins_rev_perm _ _ _).trans ?_)
    refine (List.Perm.cons _ (List.reverse_perm _)).trans ?_
    exact (List.perm_append_singleton _ _).symm
  · show List.Sublist _ (List.take (p.num_gaps + 1) _)
    rw [htake]
    have := ins_rev_sublist (entry_lt p.node_heap) ⟨size, some node⟩ (p.gap_ix.take p.num_gaps).reverse
    simpa using List.reverse_sublist.mpr this
  · unfold gap_ix_sorted
    simp only [gap_keys_eq]
    show ((List.map _ (List.take (p.num_gaps + 1) _)).zip _).all _ = true
    rw [htake]
    refine (sorted_iff_chain p.node_heap _ ?_).mpr ?_
    · intro x hx
      have hx2 := (ins_rev_perm (entry_lt p.node_heap) ⟨size, some node⟩ _).mem_iff.mp
        (List.mem_reverse.mp hx)
      exact hrefs x hx2
    · exact List.chain'_reverse.mp (by
        rw [List.reverse_reverse]
        exact ins_rev_chain _ _ (entry_lt_asymm p.node_heap) _ hRchain)

theorem add_to_gap_ix_sorted_witness :
    ∃ q, _mem_add_to_gap_ix reuse_before 300 2 = some q ∧
      q.num_gaps = reuse_before.num_gaps + 1 ∧
      q.node_heap = reuse_before.node_heap ∧
      (q.gap_ix.take q.num_gaps).Perm
        (reuse_before.gap_ix.take reuse_before.num_gaps ++ [⟨300, some 2⟩]) ∧
      (reuse_before.gap_ix.take reuse_before.num_gaps).Sublist (q.gap_ix.take q.num_gaps) ∧
      gap_ix_sorted q = true :=
  add_to_gap_ix_sorted reuse_before 300 2 ⟨300, some 300, 1, 1, some 3, some 1⟩ rfl
    (by decide) (by decide) rfl
    (by
      intro x hx
      have hx2 : x = ⟨200, some 1⟩ ∨ x = ⟨400, some 3⟩ := by
        simpa [reuse_before] using hx
      rcases hx2 with h | h <;> subst h <;> exact ⟨_, rfl⟩)
    rfl

/-- C19 (inspect consistency) fails on the code.  On a FIRST_FIT pool of size 1000 the
valid call `allocate 1` returns slot 0 and leaves the chain slot 0, slot 1 in a node
heap of 40 slots, which `mem_inspect_pool` reports as (1, allocated), (999, free).  The
second valid call `allocate 1` finds slot 0 with `used / size` at 1 / 1, so
`_mem_resize_node_heap` reallocates the node heap to 80 slots and the heap moves; the
call returns slot 1, whose links the split writes afresh, but the `next` link of slot 0
still points to slot 1 of the freed block (written 81).  The walk from slot 0 along the
`next` links then leaves the node heap at its first step: the chain is not a list of
`used_nodes` (3) segments and `mem_inspect_pool` reads freed memory. -/
theorem chain_walk_leaves_node_heap (γ : Nat → Nat) :
    ∃ p p1, run_calls (mem_pool_open 1000 FIRST_FIT) [] [allocate 1 (γ 0)]
        = some (p, [handle (some 0)]) ∧
      chain p = some [0, 1] ∧ mem_inspect_pool p = some ([⟨1, 1⟩, ⟨999, 0⟩], 2) ∧
      p.node_heap.length = 40 ∧
      run_calls (mem_pool_open 1000 FIRST_FIT) [] [allocate 1 (γ 0), allocate 1 (γ 1)]
        = some (p1, [handle (some 0), handle (some 1)]) ∧
      p1.node_heap.length = 80 ∧ p1.used_nodes = 3 ∧
      (p1.node_heap[0]?).map (fun nd => (nd.used, nd.prev, nd.next))
        = some (1, none, some 81) ∧
      p1.node_heap[81]? = none ∧
      chain p1 = none ∧ mem_inspect_pool p1 = none :=
  ⟨_, _, rfl, rfl, rfl, rfl, rfl, rfl, rfl, rfl, rfl, rfl, rfl⟩

set_option maxRecDepth 100000 in
/-- C20 (bounded bookkeeping) fails on the code, whatever the uninitialised `position`
starts at.  On a FIRST_FIT pool of size 1, allocate 1 twice gives the slots 0 and 1;
then 31 rounds of deallocate 0, allocate 1, allocate 1 each free the doubled slot 0,
split it again and allocate the new segment, whose address 1 is that of slot 1.  The
handles 1 to 31 are then deallocated: each time `mem_del_alloc` finds slot 1 by its
address and adds it to the gap index again.  Every call of this run (`pump_calls`) is
valid and returns as listed; the state reached has `num_gaps` 31 (above 20) with one
free segment in the chain.  The deallocate of handle 32 then finds
`num_gaps / gap_ix_capacity` at 31 / 40, above 0.75: it returns OK, the growth branch of
`_mem_resize_gap_ix` has been taken (the capacity is 80) and `num_gaps` is 32.  The
bound `used_nodes <= total_nodes = 40` holds in these states. -/
theorem num_gaps_exceeds_bound (γ : Nat → Nat) :
    (run_calls (mem_pool_open 1 FIRST_FIT) [] (pump_calls γ)).map
        (fun r => (r.2, r.1.num_gaps, r.1.gap_ix_capacity, (free_slots r.1).map List.length,
          r.1.used_nodes, r.1.total_nodes))
      = some ([handle (some 0), handle (some 1)] ++
          ((List.range 31).map (fun i =>
            [status ALLOC_OK, handle (some 0), handle (some (i + 2))])).flatten ++
          (List.range 31).map (fun _ => status ALLOC_OK), 31, 40, some 1, 33, 40) ∧
    (run_calls (mem_pool_open 1 FIRST_FIT) []
        (pump_calls γ ++ [deallocate 32 (γ 300) (γ 301) (γ 302)])).map
        (fun r => (r.2.getLast?, r.1.num_gaps, r.1.gap_ix_capacity,
          (free_slots r.1).map List.length, r.1.used_nodes, r.1.total_nodes))
      = some (some (status ALLOC_OK), 32, 80, some 1, 33, 40) :=
  ⟨rfl, rfl⟩

/-- The FIRST_FIT scan ends without a node when every slot it visits is too small. -/
theorem first_fit_loop_none (heap : List node_t) (s : Nat) : ∀ (n i : Nat),
    (∀ k, i ≤ k → k < i + n → ∃ nd, heap[k]? = some nd ∧ nd.size < s) →
    first_fit_loop heap s n i = some none := by
  intro n
  induction n with
  | zero => intro i _; rfl
  | succ n ih =>
    intro i h
    obtain ⟨nd, h1, h2⟩ := h i (Nat.le_refl i) (by omega)
    unfold first_fit_loop
    rw [h1]
    simp only
    rw [if_neg (by omega)]
    exact ih (i + 1) (fun k hk1 hk2 => h k (by omega) (by omega))

/-- On a freshly opened pool of size `n` of 2 or more, an allocate of more than `n`
bytes returns no handle and leaves the pool as it is. -/
theorem fresh_oversize_rejected (n s g : Nat) (policy : alloc_policy) (hn : 2 ≤ n)
    (hs : n < s) :
    mem_new_alloc (mem_pool_open n policy) s g = some (mem_pool_open n policy, none) := by
  have h0 : (mem_pool_open n policy).node_heap[0]? = some ⟨n, some 0, 1, 0, none, none⟩ := rfl
  have hres : _mem_resize_node_heap (mem_pool_open n policy) = some (mem_pool_open n policy) := by
    unfold _mem_resize_node_heap
    rw [h0]
    simp only
    rw [if_neg (by omega)]
  have hsearch : alloc_search (mem_pool_open n policy) s = some none := by
    cases policy with
    | FIRST_FIT =>
      show first_fit_loop (mem_pool_open n FIRST_FIT).node_heap s 40 0 = some none
      apply first_fit_loop_none
      intro k _ hk
      by_cases hk0 : k = 0
      · subst hk0; exact ⟨_, h0, hs⟩
      · refine ⟨node_zero, ?_, by show 0 < s; omega⟩
        have e : (mem_pool_open n FIRST_FIT).node_heap[k]? = (List.replicate 40 node_zero)[k]? :=
          List.getElem?_set_ne (Ne.symm hk0)
        rw [e, List.getElem?_replicate, if_pos (by omega)]
    | BEST_FIT =>
      show best_fit_loop (mem_pool_open n BEST_FIT).node_heap (mem_pool_open n BEST_FIT).gap_ix
        s 1 0 = some none
      have hg : gap_node (mem_pool_open n BEST_FIT).node_heap (mem_pool_open n BEST_FIT).gap_ix 0
          = some (⟨0, some 0⟩, 0, ⟨n, some 0, 1, 0, none, none⟩) := rfl
      unfold best_fit_loop
      rw [hg]
      simp only
      rw [if_neg (by omega)]
      rfl
  have hg : ¬ (mem_pool_open n policy).num_gaps = 0 := by
    show ¬ (1 = 0); decide
  have hu : ¬ (mem_pool_open n policy).used_nodes ≥ (mem_pool_open n policy).total_nodes := by
    show ¬ (1 ≥ 40); decide
  unfold mem_new_alloc
  rw [if_neg hg, hres]
  simp only
  rw [if_neg hu, hsearch]

/-- Eleven valid calls on a FIRST_FIT pool of size 1 after which `alloc_size` has gone
below 0: a deallocate subtracts the size that `_mem_resize_node_heap` doubled where the
allocate added the requested size, so `alloc_size` wraps to `2 ^ 64 - 1` with one
allocation held. -/
theorem alloc_size_wraps (γ : Nat → Nat) :
    ∃ q, run_calls (mem_pool_open 1 FIRST_FIT) []
        [allocate 1 (γ 1), allocate 1 (γ 2),
         deallocate 0 (γ 3) (γ 4) (γ 5), allocate 1 (γ 6), allocate 1 (γ 7),
         deallocate 0 (γ 8) (γ 9) (γ 10), allocate 1 (γ 11), allocate 1 (γ 12),
         deallocate 1 (γ 13) (γ 14) (γ 15), deallocate 2 (γ 16) (γ 17) (γ 18),
         deallocate 3 (γ 19) (γ 20) (γ 21)]
        = some (q, [handle (some 0), handle (some 1), status ALLOC_OK, handle (some 0),
            handle (some 2), status ALLOC_OK, handle (some 0), handle (some 3),
            status ALLOC_OK, status ALLOC_OK, status ALLOC_OK]) ∧
      q.total_size = 1 ∧ q.alloc_size = 2 ^ 64 - 1 ∧ q.num_allocs = 1 ∧
      mem_inspect_pool q = some ([⟨2, 1⟩, ⟨1, 1⟩, ⟨1, 1⟩, ⟨1, 0⟩], 4) :=
  ⟨_, rfl, rfl, rfl, rfl, rfl⟩

/-- C21 (no over-commit) fails on the code, whatever the uninitialised `position`
starts at.  A freshly opened FIRST_FIT pool of size 1 has `total_size` 1 and
`alloc_size` 0.  The valid call `allocate 2`, a request above the pool size, finds
slot 0 with `used / size` at 1 / 1, so `_mem_resize_node_heap` doubles the size of
slot 0 before the search; the call returns a handle (slot 0) and leaves `alloc_size` at
2, above `total_size`, with the chain one allocated segment of 2 bytes. -/
theorem alloc_size_exceeds_total_size (γ : Nat → Nat) :
    (mem_pool_open 1 FIRST_FIT).total_size = 1 ∧
    (mem_pool_open 1 FIRST_FIT).alloc_size = 0 ∧
    ∃ p, run_calls (mem_pool_open 1 FIRST_FIT) [] [allocate 2 (γ 0)]
        = some (p, [handle (some 0)]) ∧
      mem_new_alloc (mem_pool_open 1 FIRST_FIT) 2 (γ 0) = some (p, some 0) ∧
      p.alloc_size = 2 ∧ p.total_size = 1 ∧ mem_inspect_pool p = some ([⟨2, 1⟩], 1) :=
  ⟨rfl, rfl, _, rfl, rfl, rfl, rfl, rfl⟩

end MemPool
